import Mathlib

/-!
Verification development for the oltp-arrow trace encoder
(`crates/trace/src/arrow/{mod,attribute,schema,span,event,link}.rs` plus the
`Span`/`Event`/`Link` data model of `crates/common/src/lib.rs`).

The Rust sources are shallowly embedded:
* `serde_json::Value` / `serde_json::Number` become `JValue` / `JNum`
  (`f64` floating values are modelled as rationals; array and object
  payloads are never inspected by the encoder and are elided);
* hash maps whose iteration order is only required to be stable within a
  batch (`HashMap<String, FieldInfo>`, `HashMap<String, DataColumn>`,
  attribute maps) become association lists in insertion order, and
  `HashSet<String>` becomes a duplicate-free list;
* machine integers (`u64`, `u32`, `u8`, `i64`, `i32`, `usize`) become
  `Nat`/`Int`; casts that can truncate (`as u8`, `as u32`) are written with
  an explicit `% 2 ^ w`;
* panics (`assert!`, `expect`, `unwrap`, and `usize` subtraction overflow,
  which aborts in debug builds and makes the pad loop push a wrapped
  number of entries in release builds) are modelled by `Option`:
  a function returns `none` exactly when the Rust code does not return
  normally;
* the Arrow array/record-batch layer is modelled by the logical content of
  the arrays; writing an IPC stream keeps the record batch (the Arrow
  stream writer/reader round trip is the arrow crate's contract), while a
  zero-length byte buffer is the distinguished `Buffer.empty`.
-/

namespace OltpArrow

/-- `serde_json::Number`: an unsigned integer (`PosInt`), a negative signed
integer (`NegInt`; serde_json only uses this variant for negative values),
or a finite double (`Float`), the double being modelled as a rational. -/
inductive JNum where
  | posInt (n : Nat)
  | negInt (n : Int)
  | float (q : ℚ)
  deriving DecidableEq, Repr

namespace JNum

/-- `Number::is_u64`. -/
def is_u64 : JNum → Bool
  | .posInt _ => true
  | _ => false

/-- `Number::is_i64`: a `PosInt` qualifies when it fits in `i64`. -/
def is_i64 : JNum → Bool
  | .posInt n => n ≤ 2 ^ 63 - 1
  | .negInt _ => true
  | .float _ => false

/-- `Number::is_f64`: only the `Float` variant. -/
def is_f64 : JNum → Bool
  | .float _ => true
  | _ => false

/-- `Number::as_u64`. -/
def as_u64 : JNum → Option Nat
  | .posInt n => some n
  | _ => none

/-- `Number::as_i64`. -/
def as_i64 : JNum → Option Int
  | .posInt n => if n ≤ 2 ^ 63 - 1 then some (n : Int) else none
  | .negInt n => some n
  | .float _ => none

/-- `Number::as_f64`: defined for every variant (integers are converted;
the `f64` rounding of large integers is abstracted by the exact rational). -/
def as_f64 : JNum → Option ℚ
  | .posInt n => some (n : ℚ)
  | .negInt n => some (n : ℚ)
  | .float q => some q

end JNum

/-- `serde_json::Value`.  Array and object payloads are elided: the encoder
only ever asks `is_null`/`as_*` on them, which do not inspect the payload. -/
inductive JValue where
  | null
  | bool (b : Bool)
  | num (n : JNum)
  | str (s : String)
  | arr
  | obj
  deriving DecidableEq, Repr

namespace JValue

/-- `Value::is_null`. -/
def is_null : JValue → Bool
  | .null => true
  | _ => false

/-- `Value::as_str`. -/
def as_str : JValue → Option String
  | .str s => some s
  | _ => none

/-- `Value::as_bool`. -/
def as_bool : JValue → Option Bool
  | .bool b => some b
  | _ => none

/-- `Value::as_u64`. -/
def as_u64 : JValue → Option Nat
  | .num n => n.as_u64
  | _ => none

/-- `Value::as_i64`. -/
def as_i64 : JValue → Option Int
  | .num n => n.as_i64
  | _ => none

/-- `Value::as_f64`. -/
def as_f64 : JValue → Option ℚ
  | .num n => n.as_f64
  | _ => none

end JValue

/-- `common::Attributes = HashMap<String, Value>`, as an association list in
iteration order (each concrete map has pairwise distinct keys). -/
def Attributes := List (String × JValue)
  deriving DecidableEq, Repr

/-- `HashMap::get` on an attribute map. -/
def Attributes.get (a : Attributes) (k : String) : Option JValue :=
  (List.find? (fun kv => kv.1 = k) a).map (·.2)

/-- `common::Event`. -/
structure Event where
  time_unix_nano : Nat
  name : String
  attributes : Attributes
  dropped_attributes_count : Option Nat
  deriving DecidableEq, Repr

/-- `common::Link`. -/
structure Link where
  trace_id : String
  span_id : String
  trace_state : Option String
  attributes : Attributes
  dropped_attributes_count : Option Nat
  deriving DecidableEq, Repr

/-- `common::Span` (`kind` is an `i32` in the source). -/
structure Span where
  trace_id : String
  span_id : String
  trace_state : Option String
  parent_span_id : Option String
  name : String
  kind : Option Int
  start_time_unix_nano : Nat
  end_time_unix_nano : Option Nat
  attributes : Option Attributes
  dropped_attributes_count : Option Nat
  events : Option (List Event)
  dropped_events_count : Option Nat
  links : Option (List Link)
  dropped_links_count : Option Nat
  deriving DecidableEq, Repr

/-- `arrow::schema::FieldType`. -/
inductive FieldType where
  | u64
  | i64
  | f64
  | string
  | bool
  deriving DecidableEq, Repr

/-- `arrow::schema::FieldInfo`; `dictionary_values : HashSet<String>` is a
duplicate-free list in insertion order. -/
structure FieldInfo where
  non_null_count : Nat
  field_type : FieldType
  dictionary_values : List String
  deriving DecidableEq, Repr

/-- `HashSet::insert`. -/
def insertDictValue (l : List String) (s : String) : List String :=
  if s ∈ l then l else l ++ [s]

/-- `FieldInfo::is_dictionary`:
`(dictionary_values.len() as f64 / non_null_count as f64) < 0.2`.
The `f64` comparison is modelled exactly by `5 * d < n`: for the `u64`-sized
counts involved the quotient rounds too little to cross `0.2`, and when
`non_null_count = 0` the float comparison (`NaN < 0.2` or `inf < 0.2`) is
false, as is `5 * d < 0`. -/
def FieldInfo.is_dictionary (fi : FieldInfo) : Bool :=
  5 * fi.dictionary_values.length < fi.non_null_count

/-- The per-entity attribute schema
`HashMap<String, FieldInfo, RandomXxHashBuilder64>`, in insertion order
(iteration order is stable within one batch, which is all the source
requires). -/
def AttrSchema := List (String × FieldInfo)
  deriving DecidableEq, Repr

/-- Type of an entry, if present. -/
def AttrSchema.typeOf (m : AttrSchema) (k : String) : Option FieldType :=
  (List.find? (fun kv => kv.1 = k) m).map (fun kv => kv.2.field_type)

/-- `HashMap::entry(k).and_modify(f).or_insert_with(i)`. -/
def entryModifyOrInsert (k : String) (f : FieldInfo → FieldInfo)
    (i : FieldInfo) : AttrSchema → AttrSchema
  | [] => [(k, i)]
  | (k₀, fi) :: rest =>
    if k₀ = k then (k₀, f fi) :: rest
    else (k₀, fi) :: entryModifyOrInsert k f i rest

/-- One `kv` iteration of `infer_attribute_types`
(`arrow/attribute.rs`, `Value` match). -/
def inferOne (m : AttrSchema) (k : String) (v : JValue) : AttrSchema :=
  match v with
  | .null | .arr | .obj => m
  | .bool _ =>
    entryModifyOrInsert k
      (fun fi =>
        { fi with
          field_type :=
            if fi.field_type ≠ FieldType.bool then FieldType.string
            else fi.field_type
          non_null_count := fi.non_null_count + 1 })
      { non_null_count := 1, field_type := .bool, dictionary_values := [] } m
  | .num number =>
    entryModifyOrInsert k
      (fun fi =>
        { fi with
          field_type :=
            if fi.field_type = FieldType.u64 then
              if number.is_u64 then fi.field_type
              else if number.is_i64 then FieldType.i64
              else if number.is_f64 then FieldType.f64
              else fi.field_type
            else if fi.field_type = FieldType.i64 ∧ number.is_f64 then
              FieldType.f64
            else fi.field_type
          non_null_count := fi.non_null_count + 1 })
      (if number.is_u64 then
        { non_null_count := 1, field_type := .u64, dictionary_values := [] }
      else if number.is_i64 then
        { non_null_count := 1, field_type := .i64, dictionary_values := [] }
      else
        { non_null_count := 1, field_type := .f64, dictionary_values := [] })
      m
  | .str s =>
    -- the source re-reads the value as `kv.1.as_str().unwrap_or("")`
    entryModifyOrInsert k
      (fun fi =>
        { fi with
          dictionary_values :=
            insertDictValue fi.dictionary_values ((JValue.str s).as_str.getD "")
          non_null_count := fi.non_null_count + 1 })
      { non_null_count := 1, field_type := .string,
        dictionary_values := [(JValue.str s).as_str.getD ""] } m

/-- `infer_attribute_types` (`arrow/attribute.rs`): fold one attribute map
into the running schema. -/
def inferAttributeTypes (attributes : Attributes)
    (attribute_types : AttrSchema) : AttrSchema :=
  attributes.foldl (fun m kv => inferOne m kv.1 kv.2) attribute_types

/-- The span fold of `infer_span_attribute_schema`, generalised over the
starting schema (the source starts from the empty map). -/
def inferSpansFrom (spans : List Span) (m : AttrSchema) : AttrSchema :=
  spans.foldl
    (fun m span =>
      match span.attributes with
      | none => m
      | some attributes => inferAttributeTypes attributes m) m

/-- `infer_span_attribute_schema`. -/
def inferSpanAttributeSchema (spans : List Span) : AttrSchema :=
  inferSpansFrom spans []

/-- `infer_event_attribute_schema`: the event count together with the
inferred attribute schema over all events of all spans. -/
def inferEventAttributeSchema (spans : List Span) : Nat × AttrSchema :=
  spans.foldl
    (fun acc span =>
      match span.events with
      | none => acc
      | some events =>
        events.foldl
          (fun acc event =>
            (acc.1 + 1, inferAttributeTypes event.attributes acc.2)) acc)
    (0, [])

/-- `infer_link_attribute_schema`. -/
def inferLinkAttributeSchema (spans : List Span) : Nat × AttrSchema :=
  spans.foldl
    (fun acc span =>
      match span.links with
      | none => acc
      | some links =>
        links.foldl
          (fun acc link =>
            (acc.1 + 1, inferAttributeTypes link.attributes acc.2)) acc)
    (0, [])

/-- Bit length of `x`, by structural recursion on a fuel argument (`x`
itself suffices as fuel since the binary length of `x` never exceeds `x`). -/
def numBitsAux : Nat → Nat → Nat
  | _, 0 => 0
  | 0, _ + 1 => 0
  | fuel + 1, x + 1 => numBitsAux fuel ((x + 1) / 2) + 1

/-- `min_num_bits_to_represent` (`arrow/attribute.rs` and `arrow/mod.rs`):
`assert!(x > 0); 64 - x.leading_zeros()`, i.e. the bit length of `x`
(the values fed to it are set cardinalities, which fit in `u64`); the
violated assertion is `none`. -/
def min_num_bits_to_represent (x : Nat) : Option Nat :=
  if x = 0 then none else some (numBitsAux x x)

/-- `arrow::datatypes::DataType`, restricted to the types this encoder
emits. -/
inductive DataType where
  | uint8
  | uint16
  | uint32
  | uint64
  | int64
  | float64
  | boolean
  | utf8
  | binary
  | dictionary (key : DataType) (value : DataType)
  deriving DecidableEq, Repr

/-- Key width chosen for a dictionary of the given cardinality: the chain
`if min_num_bits <= 8 {UInt8} else if min_num_bits <= 16 {UInt16} else
{UInt32}` that appears inlined in `add_attribute_columns`,
`add_attribute_fields` and `attribute_fields`; `none` is the
`assert!(x > 0)` panic of `min_num_bits_to_represent`. -/
def dictKeyType (card : Nat) : Option DataType :=
  (min_num_bits_to_represent card).map fun min_num_bits =>
    if min_num_bits ≤ 8 then DataType.uint8
    else if min_num_bits ≤ 16 then DataType.uint16
    else DataType.uint32

/-- `arrow::datatypes::Field` (name, physical type, nullability). -/
structure Field where
  name : String
  dataType : DataType
  nullable : Bool
  deriving DecidableEq, Repr

/-- An Arrow array, by logical content: one slot per row, `none` for a null
slot.  Arrays built by `from_iter_values` carry only `some` slots.  A
dictionary array is recorded by its key type and its logical string
values (the builder deduplicates values into the dictionary buffer). -/
inductive ArrowArray where
  | uint8Arr (vals : List (Option Nat))
  | uint32Arr (vals : List (Option Nat))
  | uint64Arr (vals : List (Option Nat))
  | int64Arr (vals : List (Option Int))
  | float64Arr (vals : List (Option ℚ))
  | booleanArr (vals : List (Option Bool))
  | utf8Arr (vals : List (Option String))
  | binaryArr (vals : List (Option String))
  | dictArr (keyType : DataType) (vals : List (Option String))
  deriving DecidableEq, Repr

namespace ArrowArray

/-- `Array::len`. -/
def length : ArrowArray → Nat
  | .uint8Arr v | .uint32Arr v | .uint64Arr v => v.length
  | .int64Arr v => v.length
  | .float64Arr v => v.length
  | .booleanArr v => v.length
  | .utf8Arr v | .binaryArr v => v.length
  | .dictArr _ v => v.length

/-- `Array::data_type`. -/
def dataType : ArrowArray → DataType
  | .uint8Arr _ => .uint8
  | .uint32Arr _ => .uint32
  | .uint64Arr _ => .uint64
  | .int64Arr _ => .int64
  | .float64Arr _ => .float64
  | .booleanArr _ => .boolean
  | .utf8Arr _ => .utf8
  | .binaryArr _ => .binary
  | .dictArr k _ => .dictionary k .utf8

/-- `Array::null_count`. -/
def nullCount : ArrowArray → Nat
  | .uint8Arr v | .uint32Arr v | .uint64Arr v =>
    (v.filter Option.isNone).length
  | .int64Arr v => (v.filter Option.isNone).length
  | .float64Arr v => (v.filter Option.isNone).length
  | .booleanArr v => (v.filter Option.isNone).length
  | .utf8Arr v | .binaryArr v => (v.filter Option.isNone).length
  | .dictArr _ v => (v.filter Option.isNone).length

end ArrowArray

/-- `arrow::record_batch::RecordBatch`. -/
structure RecordBatch where
  schema : List Field
  columns : List ArrowArray
  deriving DecidableEq, Repr

/-- `RecordBatch::num_rows` (length of the first column, 0 for none). -/
def RecordBatch.numRows (b : RecordBatch) : Nat :=
  (b.columns.head?.map ArrowArray.length).getD 0

/-- `RecordBatch::num_columns`. -/
def RecordBatch.numColumns (b : RecordBatch) : Nat :=
  b.columns.length

/-- `RecordBatch::try_new`: errors unless there is at least one column, the
column count matches the field count, each column's data type matches its
field, and all columns have equal length. -/
def RecordBatch.tryNew (schema : List Field) (columns : List ArrowArray) :
    Option RecordBatch :=
  if columns.length = schema.length ∧ columns ≠ [] ∧
      (columns.zip schema).all
        (fun p => p.1.dataType = p.2.dataType) ∧
      columns.all
        (fun c => c.length = ((columns.head?.map ArrowArray.length).getD 0))
  then some ⟨schema, columns⟩ else none

/-- An encoded table buffer: a zero-length byte vector, or an Arrow IPC
stream whose bytes carry the schema and the single record batch (the
stream writer/reader round trip is the arrow crate's contract). -/
inductive Buffer where
  | empty
  | stream (batch : RecordBatch)
  deriving DecidableEq, Repr

/-- Field names carried by a buffer's schema (none for the empty buffer). -/
def Buffer.fieldNames : Buffer → List String
  | .empty => []
  | .stream b => b.schema.map Field.name

/-- The `InstrumentationLibraryEvents` envelope of the OTLP-events shape:
three encoded byte buffers. -/
structure Envelope where
  spans : Buffer
  events : Buffer
  links : Buffer
  deriving DecidableEq, Repr

/-- `arrow::mod::EntitySchema`. -/
structure EntitySchema where
  schema : List Field
  attribute_fields : AttrSchema
  deriving DecidableEq, Repr

/-- `add_attribute_fields` (`arrow/attribute.rs`): append one field per
inferred attribute; `none` when the dictionary branch hits the
`min_num_bits_to_represent` assertion. -/
def add_attribute_fields (attribute_types : AttrSchema)
    (fields : List Field) : Option (List Field) :=
  attribute_types.foldlM
    (fun fields attribute_info =>
      match attribute_info.2.field_type with
      | .u64 =>
        some (fields ++ [⟨"attributes_" ++ attribute_info.1, .uint64, true⟩])
      | .i64 =>
        some (fields ++ [⟨"attributes_" ++ attribute_info.1, .int64, true⟩])
      | .f64 =>
        some (fields ++ [⟨"attributes_" ++ attribute_info.1, .float64, true⟩])
      | .string =>
        if attribute_info.2.is_dictionary then
          (dictKeyType attribute_info.2.dictionary_values.length).map
            (fun kt =>
              fields ++
                [⟨"attributes_" ++ attribute_info.1, .dictionary kt .utf8, true⟩])
        else
          some (fields ++ [⟨"attributes_" ++ attribute_info.1, .utf8, true⟩])
      | .bool =>
        some (fields ++ [⟨"attributes_" ++ attribute_info.1, .boolean, true⟩]))
    fields

/-- `build_primitive_array` (`arrow/attribute.rs`): one append per row;
missing map, missing key or non-number value appends null; a number the
converter rejects is the `expect("invalid attribute type inference")`
panic. -/
def buildPrimitiveColumn (α : Type) (attribute_name : String)
    (attributes : List (Option Attributes)) (num_converter : JNum → Option α) :
    Option (List (Option α)) :=
  attributes.mapM fun attrs =>
    match attrs with
    | none => some none
    | some attributes =>
      match attributes.get attribute_name with
      | none => some none
      | some (.num number) => (num_converter number).map some
      | some _ => some none

/-- The per-row string append shared by the plain `StringBuilder` loop and
`build_dictionary`: a string value is appended, anything else is null. -/
def buildStringColumn (attribute_name : String)
    (attributes : List (Option Attributes)) : List (Option String) :=
  attributes.map fun attrs =>
    match attrs with
    | none => none
    | some attributes =>
      match attributes.get attribute_name with
      | none => none
      | some v => v.as_str

/-- The per-row boolean append of `add_attribute_columns`. -/
def buildBoolColumn (attribute_name : String)
    (attributes : List (Option Attributes)) : List (Option Bool) :=
  attributes.map fun attrs =>
    match attrs with
    | none => none
    | some attributes =>
      match attributes.get attribute_name with
      | none => none
      | some v => v.as_bool

/-- `add_attribute_columns` (`arrow/attribute.rs`): append one array per
inferred attribute column. -/
def add_attribute_columns (attributes : List (Option Attributes))
    (schema : EntitySchema) (columns : List ArrowArray) :
    Option (List ArrowArray) :=
  schema.attribute_fields.foldlM
    (fun columns attr =>
      match attr.2.field_type with
      | .u64 =>
        (buildPrimitiveColumn Nat attr.1 attributes JNum.as_u64).map
          (fun v => columns ++ [ArrowArray.uint64Arr v])
      | .i64 =>
        (buildPrimitiveColumn Int attr.1 attributes JNum.as_i64).map
          (fun v => columns ++ [ArrowArray.int64Arr v])
      | .f64 =>
        (buildPrimitiveColumn ℚ attr.1 attributes JNum.as_f64).map
          (fun v => columns ++ [ArrowArray.float64Arr v])
      | .string =>
        if attr.2.is_dictionary then
          (dictKeyType attr.2.dictionary_values.length).map
            (fun kt =>
              columns ++
                [ArrowArray.dictArr kt
                  (buildStringColumn attr.1 attributes)])
        else
          some (columns ++
            [ArrowArray.utf8Arr (buildStringColumn attr.1 attributes)])
      | .bool =>
        some (columns ++
          [ArrowArray.booleanArr (buildBoolColumn attr.1 attributes)]))
    columns

/-- The eleven fixed span fields of `infer_span_schema` and
`serialize_spans_from_column_oriented_data_source` (identical literals in
`arrow/span.rs`). -/
def spanFixedFields : List Field :=
  [⟨"start_time_unix_nano", .uint64, false⟩,
   ⟨"end_time_unix_nano", .uint64, true⟩,
   ⟨"trace_id", .binary, false⟩,
   ⟨"span_id", .binary, false⟩,
   ⟨"trace_state", .utf8, true⟩,
   ⟨"parent_span_id", .binary, true⟩,
   ⟨"name", .utf8, false⟩,
   ⟨"kind", .uint32, true⟩,
   ⟨"dropped_attributes_count", .uint32, true⟩,
   ⟨"dropped_events_count", .uint32, true⟩,
   ⟨"dropped_links_count", .uint32, true⟩]

/-- The four fixed event fields (`arrow/event.rs`). -/
def eventFixedFields : List Field :=
  [⟨"id", .uint32, false⟩,
   ⟨"time_unix_nano", .uint64, false⟩,
   ⟨"name", .utf8, false⟩,
   ⟨"dropped_attributes_count", .uint32, true⟩]

/-- The five fixed link fields (`arrow/link.rs`). -/
def linkFixedFields : List Field :=
  [⟨"id", .uint32, false⟩,
   ⟨"trace_id", .utf8, false⟩,
   ⟨"span_id", .utf8, false⟩,
   ⟨"trace_state", .utf8, true⟩,
   ⟨"dropped_attributes_count", .uint32, true⟩]

/-- `infer_span_schema` (`arrow/span.rs`). -/
def infer_span_schema (spans : List Span) (gen_id_column : Bool) :
    Option EntitySchema := do
  let fields := spanFixedFields ++
    (if gen_id_column then [Field.mk "id" .uint32 false] else [])
  let attribute_types := inferSpanAttributeSchema spans
  let fields ← add_attribute_fields attribute_types fields
  some ⟨fields, attribute_types⟩

/-- `infer_event_schema` (`arrow/event.rs`): schema plus event count. -/
def infer_event_schema (spans : List Span) : Option (EntitySchema × Nat) := do
  let (event_count, attribute_types) := inferEventAttributeSchema spans
  let fields ← add_attribute_fields attribute_types eventFixedFields
  some (⟨fields, attribute_types⟩, event_count)

/-- `infer_link_schema` (`arrow/link.rs`): schema plus link count. -/
def infer_link_schema (spans : List Span) : Option (EntitySchema × Nat) := do
  let (link_count, attribute_types) := inferLinkAttributeSchema spans
  let fields ← add_attribute_fields attribute_types linkFixedFields
  some (⟨fields, attribute_types⟩, link_count)

/-- The eleven fixed span arrays built by
`serialize_spans_from_row_oriented_data_source` (the `columns` vec of
`arrow/span.rs`); `kind` is appended as `value as u32` from the `i32`
source field. -/
def spanFixedArraysRow (spans : List Span) : List ArrowArray :=
  [.uint64Arr (spans.map (fun span => some span.start_time_unix_nano)),
   .uint64Arr (spans.map (fun span => span.end_time_unix_nano)),
   .binaryArr (spans.map (fun span => some span.trace_id)),
   .binaryArr (spans.map (fun span => some span.span_id)),
   .utf8Arr (spans.map (fun span => span.trace_state)),
   .binaryArr (spans.map (fun span => span.parent_span_id)),
   .utf8Arr (spans.map (fun span => some span.name)),
   .uint32Arr (spans.map (fun span =>
     span.kind.map (fun v => (v % 2 ^ 32).toNat))),
   .uint32Arr (spans.map (fun span => span.dropped_attributes_count)),
   .uint32Arr (spans.map (fun span => span.dropped_events_count)),
   .uint32Arr (spans.map (fun span => span.dropped_links_count))]

/-- `serialize_spans_from_row_oriented_data_source` (`arrow/span.rs`). -/
def serialize_spans_from_row_oriented_data_source (span_schema : EntitySchema)
    (spans : List Span) (gen_id_column : Bool) : Option Buffer := do
  let columns := spanFixedArraysRow spans ++
    (if gen_id_column then
      [ArrowArray.uint32Arr ((List.range spans.length).map some)]
    else [])
  let columns ← add_attribute_columns (spans.map (·.attributes))
    span_schema columns
  let batch ← RecordBatch.tryNew span_schema.schema columns
  some (Buffer.stream batch)

/-- The `(parent index, event)` flattening of
`serialize_events_from_row_oriented_data_source`. -/
def flattenEvents (spans : List Span) : List (Nat × Event) :=
  (spans.enum.filter (fun p => p.2.events.isSome)).flatMap
    (fun p => (p.2.events.getD []).map (fun event => (p.1, event)))

/-- The `(parent index, link)` flattening of
`serialize_links_from_row_oriented_data_source`. -/
def flattenLinks (spans : List Span) : List (Nat × Link) :=
  (spans.enum.filter (fun p => p.2.links.isSome)).flatMap
    (fun p => (p.2.links.getD []).map (fun link => (p.1, link)))

/-- The four fixed event arrays of
`serialize_events_from_row_oriented_data_source`. -/
def eventFixedArraysRow (events : List (Nat × Event)) : List ArrowArray :=
  [.uint32Arr (events.map (fun p => some p.1)),
   .uint64Arr (events.map (fun p => some p.2.time_unix_nano)),
   .utf8Arr (events.map (fun p => some p.2.name)),
   .uint32Arr (events.map (fun p => p.2.dropped_attributes_count))]

/-- `serialize_events_from_row_oriented_data_source` (`arrow/event.rs`). -/
def serialize_events_from_row_oriented_data_source
    (event_schema : EntitySchema) (spans : List Span) : Option Buffer := do
  let events := flattenEvents spans
  let columns ← add_attribute_columns
    (events.map (fun p => some p.2.attributes)) event_schema
    (eventFixedArraysRow events)
  let batch ← RecordBatch.tryNew event_schema.schema columns
  some (Buffer.stream batch)

/-- The five fixed link arrays of
`serialize_links_from_row_oriented_data_source`; note that `trace_id` and
`span_id` are appended through `StringArray` (UTF-8). -/
def linkFixedArraysRow (links : List (Nat × Link)) : List ArrowArray :=
  [.uint32Arr (links.map (fun p => some p.1)),
   .utf8Arr (links.map (fun p => some p.2.trace_id)),
   .utf8Arr (links.map (fun p => some p.2.span_id)),
   .utf8Arr (links.map (fun p => p.2.trace_state)),
   .uint32Arr (links.map (fun p => p.2.dropped_attributes_count))]

/-- `serialize_links_from_row_oriented_data_source` (`arrow/link.rs`). -/
def serialize_links_from_row_oriented_data_source
    (link_schema : EntitySchema) (spans : List Span) : Option Buffer := do
  let links := flattenLinks spans
  let columns ← add_attribute_columns
    (links.map (fun p => some p.2.attributes)) link_schema
    (linkFixedArraysRow links)
  let batch ← RecordBatch.tryNew link_schema.schema columns
  some (Buffer.stream batch)

/-- `serialize_row_oriented_data_source` (`arrow/mod.rs`): the full
row-oriented encoding path producing the envelope. -/
def serialize_row_oriented_data_source (spans : List Span) :
    Option Envelope := do
  let (event_schema, event_count) ← infer_event_schema spans
  let (link_schema, link_count) ← infer_link_schema spans
  let gen_id_column := decide (0 < event_count + link_count)
  let span_schema ← infer_span_schema spans gen_id_column
  let events_buf ← serialize_events_from_row_oriented_data_source
    event_schema spans
  let links_buf ← serialize_links_from_row_oriented_data_source
    link_schema spans
  let spans_buf ← serialize_spans_from_row_oriented_data_source
    span_schema spans gen_id_column
  some ⟨spans_buf, events_buf, links_buf⟩

/-- `serialize` (`arrow/mod.rs`): a table with an empty field list becomes a
zero-length buffer, anything else an IPC stream of the batch. -/
def serializeTable (fields : List Field) (columns : List ArrowArray) :
    Option Buffer :=
  if fields = [] then some Buffer.empty
  else (RecordBatch.tryNew fields columns).map Buffer.stream

/-- `deserialize` (`arrow/mod.rs`): decode the envelope; the spans stream is
always opened (`StreamReader::try_new` fails on a zero-length buffer), the
events and links streams only when non-empty; each decoded batch must have
at least one column (`assert!`). -/
def deserialize (env : Envelope) :
    Option (RecordBatch × Option RecordBatch × Option RecordBatch) := do
  let sb ← match env.spans with
    | .empty => none
    | .stream b => some b
  if sb.numColumns > 0 then
    let eb ← match env.events with
      | .empty => some none
      | .stream b =>
        if b.numColumns > 0 then some (some b) else none
    let lb ← match env.links with
      | .empty => some none
      | .stream b =>
        if b.numColumns > 0 then some (some b) else none
    some (sb, eb, lb)
  else none

/-- `arrow::mod::DataColumn`: a typed attribute column of the pre-pivoted
column-oriented source, with its `missing` counter. -/
inductive DataColumn where
  | u64Column (missing : Nat) (values : List (Option Nat))
  | i64Column (missing : Nat) (values : List (Option Int))
  | f64Column (missing : Nat) (values : List (Option ℚ))
  | stringColumn (missing : Nat) (values : List (Option String))
  | boolColumn (missing : Nat) (values : List (Option Bool))
  deriving DecidableEq, Repr

namespace DataColumn

/-- `values.len()` of the variant. -/
def length : DataColumn → Nat
  | .u64Column _ v => v.length
  | .i64Column _ v => v.length
  | .f64Column _ v => v.length
  | .stringColumn _ v => v.length
  | .boolColumn _ v => v.length

/-- Push `None` and bump `missing` (the `None` attribute-map arm of
`attributes_to_data_columns`). -/
def pushMissing : DataColumn → DataColumn
  | .u64Column m v => .u64Column (m + 1) (v ++ [none])
  | .i64Column m v => .i64Column (m + 1) (v ++ [none])
  | .f64Column m v => .f64Column (m + 1) (v ++ [none])
  | .stringColumn m v => .stringColumn (m + 1) (v ++ [none])
  | .boolColumn m v => .boolColumn (m + 1) (v ++ [none])

/-- Push a coerced non-null value; `none` models the
`expect("should be a ... value based on the inference schema")` panics. -/
def pushValue (value : JValue) : DataColumn → Option DataColumn
  | .u64Column m v => value.as_u64.map (fun x => .u64Column m (v ++ [some x]))
  | .i64Column m v => value.as_i64.map (fun x => .i64Column m (v ++ [some x]))
  | .f64Column m v => value.as_f64.map (fun x => .f64Column m (v ++ [some x]))
  | .stringColumn m v =>
    value.as_str.map (fun x => .stringColumn m (v ++ [some x]))
  | .boolColumn m v =>
    value.as_bool.map (fun x => .boolColumn m (v ++ [some x]))

/-- The rectangularization loop `for _ in 0..(max_row_count - values.len())
{ values.push(None) }`: when `values.len() > max_row_count` the `usize`
subtraction overflows (a panic in debug builds; in release it wraps and the
loop never terminates normally), modelled as `none`.  The `missing` counter
is not touched by this loop. -/
def padTo (max_row_count : Nat) : DataColumn → Option DataColumn
  | .u64Column m v =>
    if v.length ≤ max_row_count then
      some (.u64Column m (v ++ List.replicate (max_row_count - v.length) none))
    else none
  | .i64Column m v =>
    if v.length ≤ max_row_count then
      some (.i64Column m (v ++ List.replicate (max_row_count - v.length) none))
    else none
  | .f64Column m v =>
    if v.length ≤ max_row_count then
      some (.f64Column m (v ++ List.replicate (max_row_count - v.length) none))
    else none
  | .stringColumn m v =>
    if v.length ≤ max_row_count then
      some (.stringColumn m
        (v ++ List.replicate (max_row_count - v.length) none))
    else none
  | .boolColumn m v =>
    if v.length ≤ max_row_count then
      some (.boolColumn m (v ++ List.replicate (max_row_count - v.length) none))
    else none

end DataColumn

/-- The `attributes_column: HashMap<String, DataColumn>` of an entity, as an
association list in a batch-stable iteration order. -/
def AttrColumns := List (String × DataColumn)
  deriving DecidableEq, Repr

/-- `build_attribute_columns` (`arrow/mod.rs`): one empty `DataColumn` per
inferred attribute. -/
def build_attribute_columns (inferred_attributes : AttrSchema) : AttrColumns :=
  inferred_attributes.map fun field =>
    (field.1,
      match field.2.field_type with
      | .u64 => DataColumn.u64Column 0 []
      | .i64 => DataColumn.i64Column 0 []
      | .f64 => DataColumn.f64Column 0 []
      | .string => DataColumn.stringColumn 0 []
      | .bool => DataColumn.boolColumn 0 [])

/-- Push one non-null attribute value into its column and report the new
column length; `none` models the
`expect("missing attribute column, ...")` panic when the key has no
column. -/
def pushAttrValue (name : String) (value : JValue) :
    AttrColumns → Option (AttrColumns × Nat)
  | [] => none
  | (n, c) :: rest =>
    if n = name then
      (c.pushValue value).map (fun c' => ((n, c') :: rest, c'.length))
    else
      (pushAttrValue name value rest).map
        (fun r => ((n, c) :: r.1, r.2))

/-- `attributes_to_data_columns` (`arrow/mod.rs`): `None` pushes a null into
every column; `Some(attributes)` pushes every non-null value into its
column while tracking `max_row_count`, then rectangularizes every column to
`max_row_count`. -/
def attributes_to_data_columns (attributes : Option Attributes)
    (attributes_column : AttrColumns) : Option AttrColumns :=
  match attributes with
  | none =>
    some (attributes_column.map (fun p => (p.1, p.2.pushMissing)))
  | some attributes => do
    let (cols, max_row_count) ←
      attributes.foldlM
        (fun (acc : AttrColumns × Nat) kv =>
          if kv.2.is_null then some acc
          else
            (pushAttrValue kv.1 kv.2 acc.1).map
              (fun r => (r.1, Nat.max acc.2 r.2)))
        (attributes_column, 0)
    cols.mapM (fun p => (p.2.padTo max_row_count).map ((p.1, ·)))

/-- `arrow::mod::SpanDataColumns`. -/
structure SpanDataColumns where
  trace_id_column : List String
  span_id_column : List String
  trace_state_column : List (Option String)
  parent_span_id_column : List (Option String)
  name_column : List String
  kind_column : List (Option Nat)
  start_time_unix_nano_column : List Nat
  end_time_unix_nano_column : List (Option Nat)
  attributes_column : AttrColumns
  dropped_attrs_count_column : List (Option Nat)
  dropped_events_count_column : List (Option Nat)
  dropped_links_count_column : List (Option Nat)
  deriving DecidableEq, Repr

/-- `arrow::mod::EventDataColumns`. -/
structure EventDataColumns where
  id_column : List Nat
  time_unix_nano_column : List Nat
  name_column : List String
  attributes_column : AttrColumns
  dropped_attributes_count_column : List (Option Nat)
  deriving DecidableEq, Repr

/-- `arrow::mod::LinkDataColumns`. -/
structure LinkDataColumns where
  id_column : List Nat
  trace_id_column : List String
  span_id_column : List String
  trace_state_column : List (Option String)
  attributes_column : AttrColumns
  dropped_attributes_count_column : List (Option Nat)
  deriving DecidableEq, Repr

/-- `arrow::mod::DataColumns`. -/
structure DataColumns where
  spans : SpanDataColumns
  events : EventDataColumns
  links : LinkDataColumns
  deriving DecidableEq, Repr

/-- Process the events of one span inside `to_data_columns`: push `id`,
fixed fields, attribute values and dropped count per event. -/
def processEvents (id : Nat) (events : List Event)
    (dc : EventDataColumns) : Option EventDataColumns :=
  events.foldlM
    (fun dc event => do
      let attrs ← attributes_to_data_columns (some event.attributes)
        dc.attributes_column
      some { dc with
        id_column := dc.id_column ++ [id]
        time_unix_nano_column :=
          dc.time_unix_nano_column ++ [event.time_unix_nano]
        name_column := dc.name_column ++ [event.name]
        attributes_column := attrs
        dropped_attributes_count_column :=
          dc.dropped_attributes_count_column ++
            [event.dropped_attributes_count] })
    dc

/-- Process the links of one span inside `to_data_columns`. -/
def processLinks (id : Nat) (links : List Link)
    (dc : LinkDataColumns) : Option LinkDataColumns :=
  links.foldlM
    (fun dc link => do
      let attrs ← attributes_to_data_columns (some link.attributes)
        dc.attributes_column
      some { dc with
        id_column := dc.id_column ++ [id]
        trace_id_column := dc.trace_id_column ++ [link.trace_id]
        span_id_column := dc.span_id_column ++ [link.span_id]
        trace_state_column := dc.trace_state_column ++ [link.trace_state]
        attributes_column := attrs
        dropped_attributes_count_column :=
          dc.dropped_attributes_count_column ++
            [link.dropped_attributes_count] })
    dc

/-- One `(id, span)` iteration of `to_data_columns`: push the span's fixed
fields (`kind` is cast `as u8`), process its attribute map, then its events
and links. -/
def processSpan (dc : DataColumns) (p : Nat × Span) : Option DataColumns := do
  let (id, span) := p
  let spanAttrs ← attributes_to_data_columns span.attributes
    dc.spans.attributes_column
  let spansCols :=
    { dc.spans with
      trace_id_column := dc.spans.trace_id_column ++ [span.trace_id]
      span_id_column := dc.spans.span_id_column ++ [span.span_id]
      trace_state_column := dc.spans.trace_state_column ++ [span.trace_state]
      parent_span_id_column :=
        dc.spans.parent_span_id_column ++ [span.parent_span_id]
      name_column := dc.spans.name_column ++ [span.name]
      kind_column :=
        dc.spans.kind_column ++ [span.kind.map (fun v => (v % 2 ^ 8).toNat)]
      start_time_unix_nano_column :=
        dc.spans.start_time_unix_nano_column ++ [span.start_time_unix_nano]
      end_time_unix_nano_column :=
        dc.spans.end_time_unix_nano_column ++ [span.end_time_unix_nano]
      attributes_column := spanAttrs
      dropped_attrs_count_column :=
        dc.spans.dropped_attrs_count_column ++ [span.dropped_attributes_count]
      dropped_events_count_column :=
        dc.spans.dropped_events_count_column ++ [span.dropped_events_count]
      dropped_links_count_column :=
        dc.spans.dropped_links_count_column ++ [span.dropped_links_count] }
  let eventsCols ← processEvents id (span.events.getD []) dc.events
  let linksCols ← processLinks id (span.links.getD []) dc.links
  some ⟨spansCols, eventsCols, linksCols⟩

/-- `to_data_columns` (`arrow/mod.rs`): initialise the attribute columns
from the inferred schemas, then fold every enumerated span. -/
def to_data_columns (spans : List Span) : Option DataColumns :=
  spans.enum.foldlM processSpan
    ⟨{ trace_id_column := [], span_id_column := [], trace_state_column := [],
       parent_span_id_column := [], name_column := [], kind_column := [],
       start_time_unix_nano_column := [], end_time_unix_nano_column := [],
       attributes_column :=
         build_attribute_columns (inferSpanAttributeSchema spans),
       dropped_attrs_count_column := [], dropped_events_count_column := [],
       dropped_links_count_column := [] },
     { id_column := [], time_unix_nano_column := [], name_column := [],
       attributes_column :=
         build_attribute_columns (inferEventAttributeSchema spans).2,
       dropped_attributes_count_column := [] },
     { id_column := [], trace_id_column := [], span_id_column := [],
       trace_state_column := [],
       attributes_column :=
         build_attribute_columns (inferLinkAttributeSchema spans).2,
       dropped_attributes_count_column := [] }⟩

/-- Distinct non-null values of a string column, in first-occurrence order
(the `HashSet` fold at the top of the `StringColumn` arm of
`attribute_fields`). -/
def distinctSomes (values : List (Option String)) : List String :=
  values.foldl
    (fun acc v => match v with
      | none => acc
      | some s => insertDictValue acc s) []

/-- Number of non-null values of a string column. -/
def countSomes (values : List (Option String)) : Nat :=
  (values.filter Option.isSome).length

/-- `attribute_fields` (`arrow/attribute.rs`), called
`add_attribute_data_columns` at its call sites: emit one schema field and
one Arrow column per `DataColumn`, deciding dictionary encoding per string
column by `(distinct as f64 / non_null as f64) < 0.2` (modelled exactly by
`5 * d < n`, see `FieldInfo.is_dictionary`).  The call sites pass the
field-name parts so that emitted names read `attributes_<key>`. -/
def attribute_fields (pfx : String) (attributes_column : AttrColumns)
    (fields : List Field) (columns : List ArrowArray) :
    Option (List Field × List ArrowArray) :=
  attributes_column.foldlM
    (fun (acc : List Field × List ArrowArray) p =>
      match p.2 with
      | .u64Column missing values =>
        some (acc.1 ++ [⟨pfx ++ p.1, .uint64, missing > 0⟩],
          acc.2 ++ [ArrowArray.uint64Arr values])
      | .i64Column missing values =>
        some (acc.1 ++ [⟨pfx ++ p.1, .int64, missing > 0⟩],
          acc.2 ++ [ArrowArray.int64Arr values])
      | .f64Column missing values =>
        some (acc.1 ++ [⟨pfx ++ p.1, .float64, missing > 0⟩],
          acc.2 ++ [ArrowArray.float64Arr values])
      | .stringColumn missing values =>
        let dictionary_values := distinctSomes values
        let non_null_count := countSomes values
        if 5 * dictionary_values.length < non_null_count then
          (dictKeyType dictionary_values.length).map
            (fun kt =>
              (acc.1 ++ [⟨pfx ++ p.1, .dictionary kt .utf8, missing > 0⟩],
                acc.2 ++ [ArrowArray.dictArr kt values]))
        else
          some (acc.1 ++ [⟨pfx ++ p.1, .utf8, missing > 0⟩],
            acc.2 ++ [ArrowArray.utf8Arr values])
      | .boolColumn missing values =>
        some (acc.1 ++ [⟨pfx ++ p.1, .boolean, missing > 0⟩],
          acc.2 ++ [ArrowArray.booleanArr values]))
    (fields, columns)

/-- The eleven fixed span arrays of
`serialize_spans_from_column_oriented_data_source`. -/
def spanFixedArraysColumn (dc : DataColumns) : List ArrowArray :=
  [.uint64Arr (dc.spans.start_time_unix_nano_column.map some),
   .uint64Arr dc.spans.end_time_unix_nano_column,
   .binaryArr (dc.spans.trace_id_column.map some),
   .binaryArr (dc.spans.span_id_column.map some),
   .utf8Arr dc.spans.trace_state_column,
   .binaryArr dc.spans.parent_span_id_column,
   .utf8Arr (dc.spans.name_column.map some),
   .uint32Arr dc.spans.kind_column,
   .uint32Arr dc.spans.dropped_attrs_count_column,
   .uint32Arr dc.spans.dropped_events_count_column,
   .uint32Arr dc.spans.dropped_links_count_column]

/-- `serialize_spans_from_column_oriented_data_source` (`arrow/span.rs`):
the eleven fixed fields (no `id` field on this path), then the attribute
fields and columns, then the record batch. -/
def serialize_spans_from_column_oriented_data_source (dc : DataColumns) :
    Option Buffer := do
  let (fields, columns) ← attribute_fields "attributes_"
    dc.spans.attributes_column spanFixedFields (spanFixedArraysColumn dc)
  let batch ← RecordBatch.tryNew fields columns
  some (Buffer.stream batch)

/-- The four fixed event arrays of
`serialize_events_from_column_oriented_data_source`. -/
def eventFixedArraysColumn (dc : DataColumns) : List ArrowArray :=
  [.uint32Arr (dc.events.id_column.map some),
   .uint64Arr (dc.events.time_unix_nano_column.map some),
   .utf8Arr (dc.events.name_column.map some),
   .uint32Arr dc.events.dropped_attributes_count_column]

/-- `serialize_events_from_column_oriented_data_source`
(`arrow/event.rs`). -/
def serialize_events_from_column_oriented_data_source (dc : DataColumns) :
    Option Buffer := do
  let (fields, columns) ← attribute_fields "attributes_"
    dc.events.attributes_column eventFixedFields (eventFixedArraysColumn dc)
  let batch ← RecordBatch.tryNew fields columns
  some (Buffer.stream batch)

/-- The five fixed link arrays of
`serialize_links_from_column_oriented_data_source`. -/
def linkFixedArraysColumn (dc : DataColumns) : List ArrowArray :=
  [.uint32Arr (dc.links.id_column.map some),
   .utf8Arr (dc.links.trace_id_column.map some),
   .utf8Arr (dc.links.span_id_column.map some),
   .utf8Arr dc.links.trace_state_column,
   .uint32Arr dc.links.dropped_attributes_count_column]

/-- `serialize_links_from_column_oriented_data_source` (`arrow/link.rs`). -/
def serialize_links_from_column_oriented_data_source (dc : DataColumns) :
    Option Buffer := do
  let (fields, columns) ← attribute_fields "attributes_"
    dc.links.attributes_column linkFixedFields (linkFixedArraysColumn dc)
  let batch ← RecordBatch.tryNew fields columns
  some (Buffer.stream batch)

/-- `serialize_column_oriented_data_source` (`arrow/mod.rs`): pivot into
`DataColumns`, then serialize the three tables into the envelope. -/
def serialize_column_oriented_data_source (spans : List Span) :
    Option Envelope := do
  let data_columns ← to_data_columns spans
  let events_buf ← serialize_events_from_column_oriented_data_source
    data_columns
  let links_buf ← serialize_links_from_column_oriented_data_source
    data_columns
  let spans_buf ← serialize_spans_from_column_oriented_data_source
    data_columns
  some ⟨spans_buf, events_buf, links_buf⟩

/-- Total number of events over all spans of a batch. -/
def totalEventCount (spans : List Span) : Nat :=
  (spans.map (fun span => (span.events.getD []).length)).sum

/-- Total number of links over all spans of a batch. -/
def totalLinkCount (spans : List Span) : Nat :=
  (spans.map (fun span => (span.links.getD []).length)).sum


/-! ### Concrete batches used to settle individual claims -/

/-- A minimal well-formed span: required fields set, all optionals absent. -/
def baseSpan : Span :=
  { trace_id := "t", span_id := "s", trace_state := none,
    parent_span_id := none, name := "n", kind := none,
    start_time_unix_nano := 1, end_time_unix_nano := none,
    attributes := none, dropped_attributes_count := none,
    events := none, dropped_events_count := none,
    links := none, dropped_links_count := none }

/-- Two spans whose second attribute map is present but contributes no
non-null value to any schema key. -/
def c1Batch : List Span :=
  [{ baseSpan with attributes := some [("k", .num (.posInt 1))] },
   { baseSpan with attributes := some [] }]

/-- A key whose first non-null value is a Bool and whose second non-null
value is an integer. -/
def c2Batch : List Span :=
  [{ baseSpan with attributes := some [("flag", .bool true)] },
   { baseSpan with attributes := some [("flag", .num (.posInt 1))] }]

/-- 256 pairwise distinct two-character strings, the distinct-value set of
`c3Values`. -/
def dict256 : List String :=
  ["AA", "AB", "AC", "AD", "AE", "AF", "AG", "AH", "AI", "AJ", "AK", "AL",
   "AM", "AN", "AO", "AP", "BA", "BB", "BC", "BD", "BE", "BF", "BG", "BH",
   "BI", "BJ", "BK", "BL", "BM", "BN", "BO", "BP", "CA", "CB", "CC", "CD",
   "CE", "CF", "CG", "CH", "CI", "CJ", "CK", "CL", "CM", "CN", "CO", "CP",
   "DA", "DB", "DC", "DD", "DE", "DF", "DG", "DH", "DI", "DJ", "DK", "DL",
   "DM", "DN", "DO", "DP", "EA", "EB", "EC", "ED", "EE", "EF", "EG", "EH",
   "EI", "EJ", "EK", "EL", "EM", "EN", "EO", "EP", "FA", "FB", "FC", "FD",
   "FE", "FF", "FG", "FH", "FI", "FJ", "FK", "FL", "FM", "FN", "FO", "FP",
   "GA", "GB", "GC", "GD", "GE", "GF", "GG", "GH", "GI", "GJ", "GK", "GL",
   "GM", "GN", "GO", "GP", "HA", "HB", "HC", "HD", "HE", "HF", "HG", "HH",
   "HI", "HJ", "HK", "HL", "HM", "HN", "HO", "HP", "IA", "IB", "IC", "ID",
   "IE", "IF", "IG", "IH", "II", "IJ", "IK", "IL", "IM", "IN", "IO", "IP",
   "JA", "JB", "JC", "JD", "JE", "JF", "JG", "JH", "JI", "JJ", "JK", "JL",
   "JM", "JN", "JO", "JP", "KA", "KB", "KC", "KD", "KE", "KF", "KG", "KH",
   "KI", "KJ", "KK", "KL", "KM", "KN", "KO", "KP", "LA", "LB", "LC", "LD",
   "LE", "LF", "LG", "LH", "LI", "LJ", "LK", "LL", "LM", "LN", "LO", "LP",
   "MA", "MB", "MC", "MD", "ME", "MF", "MG", "MH", "MI", "MJ", "MK", "ML",
   "MM", "MN", "MO", "MP", "NA", "NB", "NC", "ND", "NE", "NF", "NG", "NH",
   "NI", "NJ", "NK", "NL", "NM", "NN", "NO", "NP", "OA", "OB", "OC", "OD",
   "OE", "OF", "OG", "OH", "OI", "OJ", "OK", "OL", "OM", "ON", "OO", "OP",
   "PA", "PB", "PC", "PD", "PE", "PF", "PG", "PH", "PI", "PJ", "PK", "PL",
   "PM", "PN", "PO", "PP"]


/-- A string attribute column with 1281 non-null values over exactly 256
distinct strings: the dictionary decision fires (256 / 1281 < 0.2). -/
def c3Values : List (Option String) :=
  dict256.map some ++ List.replicate 1025 (some "AA")

/-- Four spans carrying one identical string attribute value: the
distinct/non-null ratio is 1/4, between the 0.2 and 0.4 thresholds. -/
def c4Batch : List Span :=
  List.replicate 4 { baseSpan with attributes := some [("s", .str "a")] }

/-- One span carrying one event (so `event_count + link_count > 0`). -/
def c5Batch : List Span :=
  [{ baseSpan with events := some (
      [{ time_unix_nano := 2, name := "e", attributes := [],
         dropped_attributes_count := none }]) }]

/-- A key whose first non-null value is a number and whose second non-null
value is a boolean. -/
def c6Batch : List Span :=
  [{ baseSpan with attributes := some [("x", .num (.posInt 1))] },
   { baseSpan with attributes := some [("x", .bool true)] }]

/-- One span carrying one link. -/
def c7Batch : List Span :=
  [{ baseSpan with links := some (
      [{ trace_id := "lt", span_id := "ls", trace_state := none,
         attributes := [], dropped_attributes_count := none }]) }]

/-- A batch of one span without events or links. -/
def c8Batch : List Span := [baseSpan]

/-- Three spans whose attribute `x` is, in order, the unsigned integer 5,
the negative integer -1, and the non-integral float 0.5. -/
def c9Batch : List Span :=
  [{ baseSpan with attributes := some [("x", .num (.posInt 5))] },
   { baseSpan with attributes := some [("x", .num (.negInt (-1)))] },
   { baseSpan with attributes := some [("x", .num (.float (1 / 2)))] }]

/-! ### Claim theorems and their supporting lemmas -/

/-- **C1** (code bug).  On `c1Batch` the column-oriented pivot violates the
claimed rectangularization: after the second span's attribute map (present,
but contributing no non-null value to any schema key) the running
`max_row_count` is `0` while the `k` column already holds one value, so the
pad loop's `usize` subtraction `max_row_count - values.len()` overflows
(debug panic / wrapped loop bound in release) instead of null-padding the
attribute column to the fixed columns' length; the whole column-oriented
encoding of this well-formed batch therefore fails. -/
theorem c1_pad_loop_underflows_instead_of_rectangularizing :
    to_data_columns c1Batch = none ∧
    serialize_column_oriented_data_source c1Batch = none ∧
    attributes_to_data_columns (some [])
      [("k", DataColumn.u64Column 0 [some 1])] = none := by decide

/-- **C2** (counterexample).  For the key `flag`, whose first non-null value
is a Bool and whose second non-null value is an integer, the inferred
column type is Bool, not String as the claim states: the number arm of
`infer_attribute_types` only promotes from the U64/I64 states and leaves a
Bool state untouched. -/
theorem c2_bool_then_integer_stays_bool :
    (inferSpanAttributeSchema c2Batch).typeOf "flag" = some FieldType.bool ∧
    (inferSpanAttributeSchema c2Batch).typeOf "flag" ≠
      some FieldType.string := by decide

/-- **C4** (counterexample).  In the row-oriented path with inference, the
string attribute `s` of `c4Batch` has 1 distinct value over 4 non-null
values, a ratio of 1/4 which is below the claimed 0.4 threshold, yet the
emitted column is plain UTF-8 and not dictionary-encoded: the code uses
`< 0.2` on this path as well. -/
theorem c4_ratio_below_two_fifths_not_dictionary :
    ((infer_span_schema c4Batch false).map
      (fun es => es.schema.filter (fun f => f.name = "attributes_s"))) =
      some [⟨"attributes_s", DataType.utf8, true⟩] ∧
    ((inferSpanAttributeSchema c4Batch).find? (fun kv => kv.1 = "s")).map
      (fun kv => (kv.2.dictionary_values.length, kv.2.non_null_count)) =
      some (1, 4) ∧
    ((serialize_row_oriented_data_source c4Batch).map
      (fun env => match env.spans with
        | .stream b => b.columns.getLast?
        | .empty => none)) =
      some (some (.utf8Arr [some "a", some "a", some "a", some "a"])) ∧
    ((1 : ℚ) / 4 < 2 / 5) :=
  ⟨by decide, by decide, by decide, by norm_num⟩

/-- **C5** (counterexample).  `c5Batch` has one event, so
`event_count + link_count > 0`; the row-oriented path emits the spans `id`
column, but the column-oriented path succeeds while emitting no `id` field
at all (its fixed field list never contains one), refuting the claimed
"in both encoding paths ... if and only if". -/
theorem c5_column_path_never_emits_id :
    ((serialize_column_oriented_data_source c5Batch).map
      (fun env => env.spans.fieldNames.contains "id")) = some false ∧
    ((serialize_row_oriented_data_source c5Batch).map
      (fun env => env.spans.fieldNames.contains "id")) = some true ∧
    0 < totalEventCount c5Batch + totalLinkCount c5Batch := by decide

/-- **C6** (confirmed).  There is a well-formed batch on which the
row-oriented encoder panics: in `c6Batch` the key `x` sees a number first
and a boolean second, the Bool arm promotes the inferred type to String
while `dictionary_values` stays empty, `is_dictionary()` holds
(0 / 2 < 0.2), and `min_num_bits_to_represent(0)` violates `assert!(x > 0)`
during schema emission, so the encoder returns no envelope: encoding is not
total over well-formed inputs. -/
theorem c6_row_encoder_panics_on_number_then_bool :
    serialize_row_oriented_data_source c6Batch = none ∧
    (inferSpanAttributeSchema c6Batch).typeOf "x" = some FieldType.string ∧
    ((inferSpanAttributeSchema c6Batch).find? (fun kv => kv.1 = "x")).map
      (fun kv => (kv.2.dictionary_values.length, kv.2.non_null_count,
        kv.2.is_dictionary)) = some (0, 2, true) ∧
    min_num_bits_to_represent 0 = none := by decide

/-- **C7** (counterexample).  In the emitted link schema the `trace_id` and
`span_id` columns are UTF-8, not Binary as claimed, and in the emitted span
schema `kind` is an unsigned 32-bit integer, not unsigned 8-bit. -/
theorem c7_link_ids_utf8_and_kind_uint32 :
    ((infer_link_schema c7Batch).map
      (fun p => p.1.schema.find? (fun f => f.name = "trace_id"))) =
      some (some ⟨"trace_id", DataType.utf8, false⟩) ∧
    ((infer_link_schema c7Batch).map
      (fun p => p.1.schema.find? (fun f => f.name = "span_id"))) =
      some (some ⟨"span_id", DataType.utf8, false⟩) ∧
    DataType.utf8 ≠ DataType.binary ∧
    ((infer_span_schema c7Batch true).map
      (fun es => es.schema.find? (fun f => f.name = "kind"))) =
      some (some ⟨"kind", DataType.uint32, true⟩) ∧
    DataType.uint32 ≠ DataType.uint8 := by decide

/-- **C8** (counterexample).  For `c8Batch`, a batch with no events and no
links, the row-oriented encoder succeeds but the events and links buffers
placed in the envelope are not zero-length: each is an Arrow IPC stream
carrying the table's fixed-field schema and a zero-row batch (the live
serializers always write the stream; only the unused `serialize` helper
could produce an empty buffer, and only for an empty field list). -/
theorem c8_childless_batch_buffers_not_empty :
    ((serialize_row_oriented_data_source c8Batch).map
      (fun env => (decide (env.events = Buffer.empty),
        decide (env.links = Buffer.empty)))) = some (false, false) ∧
    ((serialize_column_oriented_data_source c8Batch).map
      (fun env => (decide (env.events = Buffer.empty),
        decide (env.links = Buffer.empty)))) = some (false, false) := by
  decide

/-- The `HashSet` fold behind `distinctSomes` continues across an append. -/
theorem distinctSomes_append (l₁ l₂ : List (Option String)) :
    distinctSomes (l₁ ++ l₂) =
      l₂.foldl (fun acc v => match v with
        | none => acc
        | some s => insertDictValue acc s) (distinctSomes l₁) :=
  List.foldl_append ..

/-- Folding a fixed point of `f` over any number of copies of `x` is the
identity. -/
theorem foldl_fixed {α β : Type} (f : α → β → α) (a : α) (x : β)
    (h : f a x = a) : ∀ n, List.foldl f a (List.replicate n x) = a
  | 0 => rfl
  | n + 1 => by
    rw [List.replicate_succ, List.foldl_cons, h, foldl_fixed f a x h n]

/-- Non-null counts add across an append. -/
theorem countSomes_append (l₁ l₂ : List (Option String)) :
    countSomes (l₁ ++ l₂) = countSomes l₁ + countSomes l₂ := by
  simp [countSomes, List.filter_append]

/-- Non-null count of a constant non-null column. -/
theorem countSomes_replicate_some (n : Nat) (s : String) :
    countSomes (List.replicate n (some s)) = n := by
  simp [countSomes, List.filter_replicate]

set_option maxRecDepth 40000 in
set_option maxHeartbeats 4000000 in
/-- `dict256` deduplicates to itself. -/
theorem distinctSomes_dict256 : distinctSomes (dict256.map some) = dict256 :=
  by decide

set_option maxRecDepth 40000 in
set_option maxHeartbeats 1000000 in
/-- All 256 values of `dict256.map some` are non-null. -/
theorem countSomes_dict256 : countSomes (dict256.map some) = 256 := by decide

set_option maxRecDepth 40000 in
set_option maxHeartbeats 1000000 in
/-- The distinct-value set of `c3Values` is exactly `dict256`. -/
theorem distinctSomes_c3Values : distinctSomes c3Values = dict256 := by
  simp only [c3Values, distinctSomes_append, distinctSomes_dict256]
  exact foldl_fixed _ _ _ (by decide) 1025

set_option maxRecDepth 40000 in
/-- `c3Values` has 1281 non-null values. -/
theorem countSomes_c3Values : countSomes c3Values = 1281 := by
  simp only [c3Values, countSomes_append, countSomes_dict256,
    countSomes_replicate_some]

/-- `attribute_fields` on a single string column whose dictionary decision
fires emits one dictionary field and one dictionary array, with the key
type chosen by `dictKeyType` from the distinct-value count. -/
theorem attribute_fields_string_dict (pfx k : String) (missing : Nat)
    (values : List (Option String)) (fields : List Field)
    (cols : List ArrowArray) (kt : DataType)
    (hdict : 5 * (distinctSomes values).length < countSomes values)
    (hkt : dictKeyType (distinctSomes values).length = some kt) :
    attribute_fields pfx [(k, DataColumn.stringColumn missing values)]
      fields cols =
      some (fields ++
        [⟨pfx ++ k, .dictionary kt .utf8, decide (missing > 0)⟩],
        cols ++ [.dictArr kt values]) := by
  simp [attribute_fields, hdict, hkt]

set_option maxRecDepth 20000 in
/-- **C3** (counterexample).  The column `c3Values` has exactly 256 distinct
values and is emitted dictionary-encoded (256/1281 < 0.2), but with a
16-bit key, not the 8-bit key the claim requires: the code selects the
smallest width holding the *bit length* `floor(log2 x) + 1` of the
cardinality (`64 - leading_zeros`), which at 256 is 9, although
`ceil(log2 256) = 8 ≤ 8`. -/
theorem c3_256_distinct_values_get_16_bit_key :
    attribute_fields "attributes_"
      [("k", DataColumn.stringColumn 0 c3Values)] [] [] =
      some ([⟨"attributes_k", .dictionary .uint16 .utf8, false⟩],
        [.dictArr .uint16 c3Values]) ∧
    (distinctSomes c3Values).length = 256 ∧
    DataType.uint16 ≠ DataType.uint8 ∧
    Nat.clog 2 256 ≤ 8 := by
  refine ⟨?_, ?_, by decide, ?_⟩
  · have h := attribute_fields_string_dict "attributes_" "k" 0 c3Values [] []
      .uint16 (by rw [distinctSomes_c3Values, countSomes_c3Values]; decide)
      (by rw [distinctSomes_c3Values]; decide)
    simpa using h
  · rw [distinctSomes_c3Values]; decide
  · exact (Nat.le_pow_iff_clog_le (by norm_num)).mp (by norm_num)

/-- `numBitsAux fuel x` (with enough fuel) is at most `k` exactly when
`x < 2 ^ k`: the bit-length characterisation. -/
theorem numBitsAux_le_iff : ∀ (fuel x k : Nat), x ≤ fuel →
    (numBitsAux fuel x ≤ k ↔ x < 2 ^ k)
  | fuel, 0, k, _ => by
    cases fuel <;> simp [numBitsAux, Nat.pos_pow_of_pos, Nat.pow_pos]
  | 0, x + 1, k, h => by omega
  | fuel + 1, x + 1, 0, _ => by
    simp [numBitsAux]
  | fuel + 1, x + 1, k + 1, h => by
    have ih := numBitsAux_le_iff fuel ((x + 1) / 2) k (by omega)
    have h2 : (x + 1) / 2 < 2 ^ k ↔ x + 1 < 2 ^ (k + 1) := by
      rw [Nat.div_lt_iff_lt_mul (by norm_num), pow_succ]
    simp only [numBitsAux, Nat.succ_le_succ_iff, ih, h2]

/-- The key width chosen for cardinality `d`, characterised by cardinality
ranges. -/
theorem dictKeyType_eq (d : Nat) (hd : 0 < d) :
    dictKeyType d = some (if d < 2 ^ 8 then DataType.uint8
      else if d < 2 ^ 16 then DataType.uint16 else DataType.uint32) := by
  have h8 := numBitsAux_le_iff d d 8 le_rfl
  have h16 := numBitsAux_le_iff d d 16 le_rfl
  simp only [dictKeyType, min_num_bits_to_represent,
    if_neg (by omega : ¬ d = 0), Option.map_some', h8, h16]

/-- **C3** (amended).  For every emitted dictionary-encoded string column
with distinct-value set `D`, the key width is the smallest `W` of
`{8, 16, 32}` bits with `floor(log2 |D|) + 1 ≤ W`, i.e. `|D| < 2 ^ W`,
saturating at 32 bits; in particular a column with exactly 256 distinct
values gets a 16-bit key and a column with one distinct value gets an
8-bit key.  The final conjunct anchors the width choice to the emitter:
a single string column whose dictionary decision fires is emitted with the
key type `dictKeyType |D|`. -/
theorem c3_amended_dict_key_width_is_bit_length (d : Nat) (hd : 0 < d) :
    dictKeyType d = some (if d < 2 ^ 8 then DataType.uint8
      else if d < 2 ^ 16 then DataType.uint16 else DataType.uint32) ∧
    dictKeyType 1 = some DataType.uint8 ∧
    dictKeyType 256 = some DataType.uint16 ∧
    (∀ (pfx k : String) (missing : Nat) (values : List (Option String))
       (fields : List Field) (cols : List ArrowArray) (kt : DataType),
       5 * (distinctSomes values).length < countSomes values →
       dictKeyType (distinctSomes values).length = some kt →
       attribute_fields pfx [(k, DataColumn.stringColumn missing values)]
         fields cols =
         some (fields ++
           [⟨pfx ++ k, .dictionary kt .utf8, decide (missing > 0)⟩],
           cols ++ [.dictArr kt values])) :=
  ⟨dictKeyType_eq d hd, by decide, by decide,
   fun pfx k missing values fields cols kt h1 h2 =>
     attribute_fields_string_dict pfx k missing values fields cols kt h1 h2⟩

/-- Witness for the amended C3 theorem at cardinality 300. -/
theorem c3_amended_dict_key_width_is_bit_length_witness :
    0 < 300 ∧ dictKeyType 300 = some DataType.uint16 := by
  refine ⟨by decide, ?_⟩
  rw [(c3_amended_dict_key_width_is_bit_length 300 (by decide)).1]
  decide

/-- `AttrSchema.typeOf` on a cons cell. -/
theorem typeOf_cons (k : String) (a : String × FieldInfo) (t : AttrSchema) :
    AttrSchema.typeOf (a :: t) k =
      if a.1 = k then some a.2.field_type else AttrSchema.typeOf t k := by
  by_cases h : a.1 = k <;> simp [AttrSchema.typeOf, List.find?, h]

/-- A `HashMap::entry` update whose modifier preserves the Bool state leaves
a Bool-typed entry Bool-typed. -/
theorem typeOf_entryModifyOrInsert_bool (k' : String)
    (f : FieldInfo → FieldInfo) (i : FieldInfo)
    (hf : ∀ fi, fi.field_type = FieldType.bool →
      (f fi).field_type = FieldType.bool) :
    ∀ (m : AttrSchema) (k : String),
      m.typeOf k = some FieldType.bool →
      (entryModifyOrInsert k' f i m).typeOf k = some FieldType.bool
  | [], k, h => by simp [AttrSchema.typeOf, List.find?] at h
  | (k₀, fi) :: rest, k, h => by
    rw [typeOf_cons] at h
    rw [entryModifyOrInsert]
    by_cases h1 : k₀ = k'
    · rw [if_pos h1, typeOf_cons]
      by_cases h2 : k₀ = k
      · rw [if_pos h2] at h ⊢
        simp only [Option.some_inj] at h ⊢
        exact hf fi h
      · rw [if_neg h2] at h ⊢
        exact h
    · rw [if_neg h1, typeOf_cons]
      by_cases h2 : k₀ = k
      · rw [if_pos h2] at h ⊢
        exact h
      · rw [if_neg h2] at h ⊢
        exact typeOf_entryModifyOrInsert_bool k' f i hf rest k h

/-- No arm of `infer_attribute_types` modifies a Bool-typed entry's type:
the Bool arm keeps Bool at Bool, the number arm only promotes from the
U64 and I64 states, and the string arm never touches the type. -/
theorem typeOf_inferOne_bool (m : AttrSchema) (k' k : String) (v : JValue)
    (h : m.typeOf k = some FieldType.bool) :
    (inferOne m k' v).typeOf k = some FieldType.bool := by
  cases v with
  | null => exact h
  | arr => exact h
  | obj => exact h
  | bool b =>
    exact typeOf_entryModifyOrInsert_bool k' _ _
      (fun fi hfi => by simp [hfi]) m k h
  | num n =>
    exact typeOf_entryModifyOrInsert_bool k' _ _
      (fun fi hfi => by simp [hfi]) m k h
  | str s =>
    exact typeOf_entryModifyOrInsert_bool k' _ _
      (fun fi hfi => by simp [hfi]) m k h

/-- One whole attribute map leaves a Bool-typed entry Bool-typed. -/
theorem typeOf_inferAttributeTypes_bool :
    ∀ (attrs : List (String × JValue)) (m : AttrSchema) (k : String),
      m.typeOf k = some FieldType.bool →
      (inferAttributeTypes attrs m).typeOf k = some FieldType.bool
  | [], _, _, h => h
  | kv :: rest, m, k, h =>
    typeOf_inferAttributeTypes_bool rest _ k
      (typeOf_inferOne_bool m kv.1 k kv.2 h)

/-- `HashMap::entry` on an absent key inserts the `or_insert_with` value. -/
theorem typeOf_entryModifyOrInsert_absent (k' : String)
    (f : FieldInfo → FieldInfo) (i : FieldInfo) :
    ∀ (m : AttrSchema) (k : String),
      m.typeOf k = none → k = k' →
      (entryModifyOrInsert k' f i m).typeOf k = some i.field_type
  | [], k, _, hk => by
    subst hk; simp [entryModifyOrInsert, typeOf_cons, AttrSchema.typeOf]
  | (k₀, fi) :: rest, k, h, hk => by
    rw [typeOf_cons] at h
    by_cases h2 : k₀ = k
    · rw [if_pos h2] at h; exact absurd h (by simp)
    · rw [if_neg h2] at h
      rw [entryModifyOrInsert, if_neg (by rw [← hk]; exact h2), typeOf_cons,
        if_neg h2]
      exact typeOf_entryModifyOrInsert_absent k' f i rest k h hk

/-- **C2** (amended).  A key whose inferred state is Bool keeps the Bool
column type for the rest of the batch: no later non-null value (number,
string or bool) promotes it — in particular a Bool followed by an integer
stays Bool, not String as the claim states.  (A first Bool value does set
the state to Bool, second conjunct; the String promotion in the Bool arm
only fires when a Bool value arrives while the state is non-Bool.) -/
theorem c2_amended_once_bool_always_bool (spans : List Span)
    (m : AttrSchema) (k : String)
    (h : m.typeOf k = some FieldType.bool) :
    (inferSpansFrom spans m).typeOf k = some FieldType.bool ∧
    (∀ (m' : AttrSchema) (b : Bool), m'.typeOf k = none →
      (inferOne m' k (.bool b)).typeOf k = some FieldType.bool) := by
  constructor
  · induction spans generalizing m with
    | nil => exact h
    | cons span rest ih =>
      have hstep : inferSpansFrom (span :: rest) m =
          inferSpansFrom rest (match span.attributes with
            | none => m
            | some attributes => inferAttributeTypes attributes m) := rfl
      rw [hstep]
      cases hs : span.attributes with
      | none => simp only [hs]; exact ih m h
      | some attrs =>
        simp only [hs]
        exact ih _ (typeOf_inferAttributeTypes_bool attrs m k h)
  · intro m' b hm
    exact typeOf_entryModifyOrInsert_absent k _ _ m' k hm rfl

/-- Witness for the amended C2 theorem: starting from the state reached
after the first row of `c2Batch` (key `flag` at Bool), folding the whole
batch leaves `flag` at Bool. -/
theorem c2_amended_once_bool_always_bool_witness :
    AttrSchema.typeOf [("flag", ⟨1, FieldType.bool, []⟩)] "flag" =
      some FieldType.bool ∧
    (inferSpansFrom c2Batch
      [("flag", ⟨1, FieldType.bool, []⟩)]).typeOf "flag" =
      some FieldType.bool :=
  ⟨by decide,
   (c2_amended_once_bool_always_bool c2Batch
     [("flag", ⟨1, FieldType.bool, []⟩)] "flag" (by decide)).1⟩

/-- `attribute_fields` on a single string column whose dictionary decision
does not fire emits a plain UTF-8 field and column. -/
theorem attribute_fields_string_plain (pfx k : String) (missing : Nat)
    (values : List (Option String)) (fields : List Field)
    (cols : List ArrowArray)
    (hdict : ¬ 5 * (distinctSomes values).length < countSomes values) :
    attribute_fields pfx [(k, DataColumn.stringColumn missing values)]
      fields cols =
      some (fields ++ [⟨pfx ++ k, .utf8, decide (missing > 0)⟩],
        cols ++ [ArrowArray.utf8Arr values]) := by
  simp [attribute_fields, hdict]

/-- Row-oriented emission of a single string attribute whose
`is_dictionary()` holds. -/
theorem add_attribute_columns_string_dict (k : String) (fi : FieldInfo)
    (rows : List (Option Attributes)) (sch : List Field)
    (cols : List ArrowArray) (kt : DataType)
    (hstr : fi.field_type = FieldType.string)
    (hdict : 5 * fi.dictionary_values.length < fi.non_null_count)
    (hkt : dictKeyType fi.dictionary_values.length = some kt) :
    add_attribute_columns rows ⟨sch, [(k, fi)]⟩ cols =
      some (cols ++ [ArrowArray.dictArr kt (buildStringColumn k rows)]) := by
  simp [add_attribute_columns, hstr, FieldInfo.is_dictionary, hdict, hkt]

/-- Row-oriented emission of a single string attribute whose
`is_dictionary()` fails. -/
theorem add_attribute_columns_string_plain (k : String) (fi : FieldInfo)
    (rows : List (Option Attributes)) (sch : List Field)
    (cols : List ArrowArray)
    (hstr : fi.field_type = FieldType.string)
    (hdict : ¬ 5 * fi.dictionary_values.length < fi.non_null_count) :
    add_attribute_columns rows ⟨sch, [(k, fi)]⟩ cols =
      some (cols ++ [ArrowArray.utf8Arr (buildStringColumn k rows)]) := by
  simp [add_attribute_columns, hstr, FieldInfo.is_dictionary, hdict]

/-- **C4** (amended).  A string attribute column is emitted
dictionary-encoded if and only if `distinct / non_null < 0.2`
(`5 * distinct < non_null` exactly) in *both* paths: the row-oriented path
tests `FieldInfo::is_dictionary` (threshold 0.2, not the claimed 0.4), and
the column-oriented path tests the same 0.2 ratio recomputed from the
column's values. -/
theorem c4_amended_dictionary_iff_ratio_below_one_fifth (k : String)
    (fi : FieldInfo) (rows : List (Option Attributes)) (sch : List Field)
    (cols : List ArrowArray) (pfx : String) (missing : Nat)
    (values : List (Option String)) (fields : List Field)
    (acols : List ArrowArray)
    (hstr : fi.field_type = FieldType.string) :
    (∀ kt, dictKeyType fi.dictionary_values.length = some kt →
       5 * fi.dictionary_values.length < fi.non_null_count →
       add_attribute_columns rows ⟨sch, [(k, fi)]⟩ cols =
         some (cols ++ [ArrowArray.dictArr kt (buildStringColumn k rows)])) ∧
    (¬ 5 * fi.dictionary_values.length < fi.non_null_count →
       add_attribute_columns rows ⟨sch, [(k, fi)]⟩ cols =
         some (cols ++ [ArrowArray.utf8Arr (buildStringColumn k rows)])) ∧
    (∀ kt, dictKeyType (distinctSomes values).length = some kt →
       5 * (distinctSomes values).length < countSomes values →
       attribute_fields pfx [(k, DataColumn.stringColumn missing values)]
         fields acols =
         some (fields ++
           [⟨pfx ++ k, .dictionary kt .utf8, decide (missing > 0)⟩],
           acols ++ [ArrowArray.dictArr kt values])) ∧
    (¬ 5 * (distinctSomes values).length < countSomes values →
       attribute_fields pfx [(k, DataColumn.stringColumn missing values)]
         fields acols =
         some (fields ++ [⟨pfx ++ k, .utf8, decide (missing > 0)⟩],
           acols ++ [ArrowArray.utf8Arr values])) :=
  ⟨fun kt hkt hdict =>
     add_attribute_columns_string_dict k fi rows sch cols kt hstr hdict hkt,
   fun hdict =>
     add_attribute_columns_string_plain k fi rows sch cols hstr hdict,
   fun kt hkt hdict =>
     attribute_fields_string_dict pfx k missing values fields acols kt
       hdict hkt,
   fun hdict =>
     attribute_fields_string_plain pfx k missing values fields acols hdict⟩

/-- Witness for the amended C4 theorem: the attribute `s` of `c4Batch`
(1 distinct value over 4 non-null values, ratio 0.25) is emitted plain
UTF-8 by the row-oriented path. -/
theorem c4_amended_dictionary_iff_ratio_below_one_fifth_witness :
    add_attribute_columns (c4Batch.map Span.attributes)
      ⟨[], [("s", ⟨4, FieldType.string, ["a"]⟩)]⟩ [] =
      some [ArrowArray.utf8Arr
        [some "a", some "a", some "a", some "a"]] := by
  have h := (c4_amended_dictionary_iff_ratio_below_one_fifth "s"
    ⟨4, FieldType.string, ["a"]⟩ (c4Batch.map Span.attributes) [] []
    "attributes_" 0 [] [] [] rfl).2.1 (by decide)
  rw [h]
  decide

/-- Unpacking a successful `RecordBatch::try_new`. -/
theorem tryNew_eq_some {schema : List Field} {columns : List ArrowArray}
    {b : RecordBatch} (h : RecordBatch.tryNew schema columns = some b) :
    b.schema = schema ∧ b.columns = columns ∧
    columns.length = schema.length ∧ columns ≠ [] := by
  unfold RecordBatch.tryNew at h
  split at h
  · rename_i hc
    cases h
    exact ⟨rfl, rfl, hc.1, hc.2.1⟩
  · cases h

/-- No attribute column is called `id` (the prefix alone is longer). -/
theorem attributes_prefix_ne_id (k : String) : "attributes_" ++ k ≠ "id" := by
  intro h
  have := congrArg String.length h
  rw [String.length_append] at this
  have h11 : ("attributes_" : String).length = 11 := by decide
  have h2 : ("id" : String).length = 2 := by decide
  omega

/-- `add_attribute_fields` appends only fields named `attributes_<key>`
after the fields it was given. -/
theorem add_attribute_fields_shape :
    ∀ (ats : AttrSchema) (fields fs : List Field),
      add_attribute_fields ats fields = some fs →
      ∃ extra, fs = fields ++ extra ∧
        ∀ f ∈ extra, ∃ k, f.name = "attributes_" ++ k
  | [], fields, fs, h => by
    cases h
    exact ⟨[], by simp, by simp⟩
  | (k, fi) :: rest, fields, fs, h => by
    rw [add_attribute_fields] at h
    rw [List.foldlM_cons] at h
    have step : ∀ (f₀ : Field), f₀.name = "attributes_" ++ k →
        add_attribute_fields rest (fields ++ [f₀]) = some fs →
        ∃ extra, fs = fields ++ extra ∧
          ∀ f ∈ extra, ∃ k', f.name = "attributes_" ++ k' := by
      intro f₀ hname hrest
      obtain ⟨extra, he, hp⟩ := add_attribute_fields_shape rest _ fs hrest
      refine ⟨f₀ :: extra, by simpa using he, ?_⟩
      intro f hf
      rcases List.mem_cons.mp hf with hf | hf
      · exact ⟨k, hf ▸ hname⟩
      · exact hp f hf
    cases hft : fi.field_type <;> rw [hft] at h
    case u64 | i64 | f64 | bool =>
      exact step _ rfl h
    case string =>
      by_cases hd : fi.is_dictionary <;> simp only [hd, if_true, if_false,
        Bool.false_eq_true, ite_true, ite_false] at h
      · cases hkt : dictKeyType fi.dictionary_values.length <;>
          rw [hkt] at h
        · simp at h
        · exact step _ rfl h
      · exact step _ rfl h

/-- Unfolding one string-column step of `attribute_fields`. -/
theorem attribute_fields_cons_string (pfx k : String) (missing : Nat)
    (values : List (Option String)) (rest : AttrColumns)
    (fields : List Field) (cols : List ArrowArray) :
    attribute_fields pfx ((k, DataColumn.stringColumn missing values) :: rest)
      fields cols =
      (if 5 * (distinctSomes values).length < countSomes values then
        (dictKeyType (distinctSomes values).length).map (fun kt =>
          (fields ++
            [⟨pfx ++ k, .dictionary kt .utf8, decide (missing > 0)⟩],
           cols ++ [ArrowArray.dictArr kt values]))
      else some (fields ++ [⟨pfx ++ k, .utf8, decide (missing > 0)⟩],
        cols ++ [ArrowArray.utf8Arr values])).bind
        (fun init => attribute_fields pfx rest init.1 init.2) := rfl

/-- `attribute_fields` appends only `<prefix><key>`-named fields after the
fields and columns it was given. -/
theorem attribute_fields_shape :
    ∀ (ac : AttrColumns) (pfx : String) (fields : List Field)
      (cols : List ArrowArray) (res : List Field × List ArrowArray),
      attribute_fields pfx ac fields cols = some res →
      ∃ extraF extraC, res.1 = fields ++ extraF ∧ res.2 = cols ++ extraC ∧
        ∀ f ∈ extraF, ∃ k, f.name = pfx ++ k
  | [], pfx, fields, cols, res, h => by
    cases h
    exact ⟨[], [], by simp, by simp, by simp⟩
  | (k, c) :: rest, pfx, fields, cols, res, h => by
    have step : ∀ (f₀ : Field) (c₀ : ArrowArray), f₀.name = pfx ++ k →
        attribute_fields pfx rest (fields ++ [f₀]) (cols ++ [c₀]) =
          some res →
        ∃ extraF extraC, res.1 = fields ++ extraF ∧
          res.2 = cols ++ extraC ∧
          ∀ f ∈ extraF, ∃ k', f.name = pfx ++ k' := by
      intro f₀ c₀ hname hrest
      obtain ⟨eF, eC, h1, h2, hp⟩ :=
        attribute_fields_shape rest pfx _ _ res hrest
      refine ⟨f₀ :: eF, c₀ :: eC, by simpa using h1, by simpa using h2, ?_⟩
      intro f hf
      rcases List.mem_cons.mp hf with hf | hf
      · exact ⟨k, hf ▸ hname⟩
      · exact hp f hf
    cases c with
    | u64Column missing values => exact step _ _ rfl h
    | i64Column missing values => exact step _ _ rfl h
    | f64Column missing values => exact step _ _ rfl h
    | boolColumn missing values => exact step _ _ rfl h
    | stringColumn missing values =>
      rw [attribute_fields_cons_string] at h
      by_cases hd : 5 * (distinctSomes values).length < countSomes values
      · rw [if_pos hd] at h
        cases hkt : dictKeyType (distinctSomes values).length <;>
          rw [hkt] at h
        · simp at h
        · exact step _ _ rfl h
      · rw [if_neg hd] at h
        exact step _ _ rfl h

/-- The inner event fold of `infer_event_attribute_schema` counts one per
event. -/
theorem foldl_count_events : ∀ (evs : List Event) (acc : Nat × AttrSchema),
    (evs.foldl (fun acc event =>
      (acc.1 + 1, inferAttributeTypes event.attributes acc.2)) acc).1 =
      acc.1 + evs.length
  | [], acc => by simp
  | e :: rest, acc => by
    rw [List.foldl_cons, foldl_count_events rest _]
    simp
    omega

/-- The inner link fold of `infer_link_attribute_schema` counts one per
link. -/
theorem foldl_count_links : ∀ (ls : List Link) (acc : Nat × AttrSchema),
    (ls.foldl (fun acc link =>
      (acc.1 + 1, inferAttributeTypes link.attributes acc.2)) acc).1 =
      acc.1 + ls.length
  | [], acc => by simp
  | e :: rest, acc => by
    rw [List.foldl_cons, foldl_count_links rest _]
    simp
    omega

/-- The event count returned by inference is the total number of events. -/
theorem inferEventAttributeSchema_fst (spans : List Span) :
    (inferEventAttributeSchema spans).1 = totalEventCount spans := by
  suffices h : ∀ (l : List Span) (acc : Nat × AttrSchema),
      (l.foldl (fun acc span =>
        match span.events with
        | none => acc
        | some events =>
          events.foldl (fun acc event =>
            (acc.1 + 1, inferAttributeTypes event.attributes acc.2)) acc)
        acc).1 = acc.1 + totalEventCount l by
    have := h spans (0, [])
    simpa [inferEventAttributeSchema] using this
  intro l
  induction l with
  | nil => intro acc; simp [totalEventCount]
  | cons span rest ih =>
    intro acc
    rw [List.foldl_cons]
    cases hs : span.events with
    | none =>
      rw [ih]
      simp [totalEventCount, hs]
    | some evs =>
      rw [ih, foldl_count_events]
      simp [totalEventCount, hs]
      omega

/-- The link count returned by inference is the total number of links. -/
theorem inferLinkAttributeSchema_fst (spans : List Span) :
    (inferLinkAttributeSchema spans).1 = totalLinkCount spans := by
  suffices h : ∀ (l : List Span) (acc : Nat × AttrSchema),
      (l.foldl (fun acc span =>
        match span.links with
        | none => acc
        | some links =>
          links.foldl (fun acc link =>
            (acc.1 + 1, inferAttributeTypes link.attributes acc.2)) acc)
        acc).1 = acc.1 + totalLinkCount l by
    have := h spans (0, [])
    simpa [inferLinkAttributeSchema] using this
  intro l
  induction l with
  | nil => intro acc; simp [totalLinkCount]
  | cons span rest ih =>
    intro acc
    rw [List.foldl_cons]
    cases hs : span.links with
    | none =>
      rw [ih]
      simp [totalLinkCount, hs]
    | some ls =>
      rw [ih, foldl_count_links]
      simp [totalLinkCount, hs]
      omega

/-- Unpacking a successful `infer_span_schema`. -/
theorem infer_span_schema_inv (spans : List Span) (g : Bool)
    (es : EntitySchema) (h : infer_span_schema spans g = some es) :
    ∃ fs, add_attribute_fields (inferSpanAttributeSchema spans)
        (spanFixedFields ++
          (if g then [Field.mk "id" .uint32 false] else [])) = some fs ∧
      es = ⟨fs, inferSpanAttributeSchema spans⟩ := by
  unfold infer_span_schema at h
  simp only [bind, Option.bind_eq_some] at h
  obtain ⟨fs, haf, hes⟩ := h
  cases hes
  exact ⟨fs, haf, rfl⟩

/-- The span schema carries an `id` field exactly when `gen_id_column`. -/
theorem infer_span_schema_id_iff (spans : List Span) (g : Bool)
    (es : EntitySchema) (h : infer_span_schema spans g = some es) :
    ("id" ∈ es.schema.map Field.name ↔ g = true) := by
  obtain ⟨fs, haf, rfl⟩ := infer_span_schema_inv spans g es h
  obtain ⟨extra, rfl, hpre⟩ := add_attribute_fields_shape _ _ _ haf
  have hextra : "id" ∉ extra.map Field.name := by
    intro hx
    obtain ⟨f, hf, hfn⟩ := List.mem_map.mp hx
    obtain ⟨k, hk⟩ := hpre f hf
    exact attributes_prefix_ne_id k (hk ▸ hfn)
  cases g with
  | false =>
    simp only [if_false, List.append_nil, List.map_append, List.mem_append]
    constructor
    · rintro (hfix | hx)
      · exact absurd hfix (by decide)
      · exact absurd hx hextra
    · intro hg; cases hg
  | true =>
    refine iff_of_true ?_ rfl
    simp only [if_true, List.map_append, List.mem_append]
    left; right
    decide

/-- The column-oriented spans serializer never emits an `id` field. -/
theorem serialize_spans_column_no_id (dc : DataColumns) (buf : Buffer)
    (h : serialize_spans_from_column_oriented_data_source dc = some buf) :
    "id" ∉ buf.fieldNames := by
  unfold serialize_spans_from_column_oriented_data_source at h
  simp only [bind, Option.bind_eq_some] at h
  obtain ⟨res, haf, h⟩ := h
  obtain ⟨fs, cs⟩ := res
  simp only [Option.bind_eq_some] at h
  obtain ⟨batch, htn, hb⟩ := h
  cases hb
  obtain ⟨hsch, hcols, _, _⟩ := tryNew_eq_some htn
  obtain ⟨extraF, extraC, hf, hc, hpre⟩ :=
    attribute_fields_shape _ _ _ _ _ haf
  simp only [Buffer.fieldNames, hsch]
  simp only at hf
  rw [hf]
  intro hx
  rw [List.map_append, List.mem_append] at hx
  rcases hx with hfix | hx
  · exact absurd hfix (by decide)
  · obtain ⟨f, hfm, hfn⟩ := List.mem_map.mp hx
    obtain ⟨k, hk⟩ := hpre f hfm
    exact attributes_prefix_ne_id k (hk ▸ hfn)

/-- Unpacking a successful `serialize_spans_from_row_oriented_data_source`. -/
theorem serialize_spans_row_inv {ss : EntitySchema} {spans : List Span}
    {g : Bool} {buf : Buffer}
    (h : serialize_spans_from_row_oriented_data_source ss spans g =
      some buf) :
    ∃ cols batch,
      add_attribute_columns (spans.map (·.attributes)) ss
        (spanFixedArraysRow spans ++
          (if g then
            [ArrowArray.uint32Arr ((List.range spans.length).map some)]
          else [])) = some cols ∧
      RecordBatch.tryNew ss.schema cols = some batch ∧
      buf = Buffer.stream batch := by
  unfold serialize_spans_from_row_oriented_data_source at h
  simp only [bind, Option.bind_eq_some, Option.some.injEq] at h
  obtain ⟨cols, hac, batch, htn, hb⟩ := h
  exact ⟨cols, batch, hac, htn, hb.symm⟩

/-- Unpacking a successful envelope encode on the row-oriented path. -/
theorem serialize_row_inv {spans : List Span} {env : Envelope}
    (h : serialize_row_oriented_data_source spans = some env) :
    ∃ es ec ls lc ss ebuf lbuf sbuf,
      infer_event_schema spans = some (es, ec) ∧
      infer_link_schema spans = some (ls, lc) ∧
      infer_span_schema spans (decide (0 < ec + lc)) = some ss ∧
      serialize_events_from_row_oriented_data_source es spans = some ebuf ∧
      serialize_links_from_row_oriented_data_source ls spans = some lbuf ∧
      serialize_spans_from_row_oriented_data_source ss spans
        (decide (0 < ec + lc)) = some sbuf ∧
      env = ⟨sbuf, ebuf, lbuf⟩ := by
  unfold serialize_row_oriented_data_source at h
  simp only [bind, Option.bind_eq_some, Option.some.injEq] at h
  obtain ⟨⟨es, ec⟩, hes, ⟨ls, lc⟩, hls, ss, hss, ebuf, heb, lbuf, hlb,
    sbuf, hsb, henv⟩ := h
  exact ⟨es, ec, ls, lc, ss, ebuf, lbuf, sbuf, hes, hls, hss, heb, hlb,
    hsb, henv.symm⟩

/-- The event count of `infer_event_schema`. -/
theorem infer_event_schema_count {spans : List Span} {es : EntitySchema}
    {ec : Nat} (h : infer_event_schema spans = some (es, ec)) :
    ec = totalEventCount spans := by
  unfold infer_event_schema at h
  rcases hie : inferEventAttributeSchema spans with ⟨c, ats⟩
  rw [hie] at h
  simp only [bind, Option.bind_eq_some, Option.some.injEq] at h
  obtain ⟨fs, haf, hpair⟩ := h
  have : ec = c := by
    have := congrArg Prod.snd hpair
    simpa using this.symm
  rw [this, show c = (inferEventAttributeSchema spans).1 by rw [hie]]
  exact inferEventAttributeSchema_fst spans

/-- The link count of `infer_link_schema`. -/
theorem infer_link_schema_count {spans : List Span} {ls : EntitySchema}
    {lc : Nat} (h : infer_link_schema spans = some (ls, lc)) :
    lc = totalLinkCount spans := by
  unfold infer_link_schema at h
  rcases hie : inferLinkAttributeSchema spans with ⟨c, ats⟩
  rw [hie] at h
  simp only [bind, Option.bind_eq_some, Option.some.injEq] at h
  obtain ⟨fs, haf, hpair⟩ := h
  have : lc = c := by
    have := congrArg Prod.snd hpair
    simpa using this.symm
  rw [this, show c = (inferLinkAttributeSchema spans).1 by rw [hie]]
  exact inferLinkAttributeSchema_fst spans

/-- **C5** (amended).  In the row-oriented path the spans table carries the
non-nullable `id` column of row indices exactly when the batch has at
least one event or link; the column-oriented path never emits a spans `id`
column, whatever the batch. -/
theorem c5_amended_id_column_row_path_only (spans : List Span) :
    (∀ env, serialize_row_oriented_data_source spans = some env →
      ("id" ∈ env.spans.fieldNames ↔
        0 < totalEventCount spans + totalLinkCount spans)) ∧
    (∀ (dc : DataColumns) (buf : Buffer),
      serialize_spans_from_column_oriented_data_source dc = some buf →
      "id" ∉ buf.fieldNames) ∧
    (∀ (g : Bool) (es : EntitySchema), infer_span_schema spans g = some es →
      ("id" ∈ es.schema.map Field.name ↔ g = true)) := by
  refine ⟨?_, fun dc buf h => serialize_spans_column_no_id dc buf h,
    fun g es h => infer_span_schema_id_iff spans g es h⟩
  intro env henv
  obtain ⟨es, ec, ls, lc, ss, ebuf, lbuf, sbuf, hes, hls, hss, _, _, hsb,
    rfl⟩ := serialize_row_inv henv
  obtain ⟨cols, batch, _, htn, rfl⟩ := serialize_spans_row_inv hsb
  obtain ⟨hsch, _, _, _⟩ := tryNew_eq_some htn
  have hid := infer_span_schema_id_iff spans _ ss hss
  simp only [Buffer.fieldNames, hsch]
  rw [hid]
  rw [infer_event_schema_count hes, infer_link_schema_count hls]
  simp

/-- Witness for the amended C5 theorem on `c5Batch` (one event): the
inferred span schema with `gen_id_column = true` carries the `id` field. -/
theorem c5_amended_id_column_row_path_only_witness :
    "id" ∈ ((spanFixedFields ++
      [Field.mk "id" DataType.uint32 false]).map Field.name) :=
  ((c5_amended_id_column_row_path_only c5Batch).2.2 true
    ⟨spanFixedFields ++ [Field.mk "id" DataType.uint32 false], []⟩
    (by decide)).mpr rfl

/-- `find?` keeps its answer across an appended tail. -/
theorem find?_append_of_some {α : Type} (p : α → Bool) :
    ∀ (l₁ : List α) (l₂ : List α) (a : α),
      l₁.find? p = some a → (l₁ ++ l₂).find? p = some a
  | [], _, a, h => by simp [List.find?] at h
  | x :: rest, l₂, a, h => by
    rw [List.cons_append]
    rw [List.find?_cons] at h ⊢
    cases hp : p x with
    | true => rw [hp] at h; simpa [hp] using h
    | false =>
      rw [hp] at h
      simp only [hp]
      exact find?_append_of_some p rest l₂ a h

/-- An `attributes_`-prefixed name never equals a name whose first eleven
characters differ from the prefix. -/
theorem attributes_prefix_ne (k t : String)
    (h : t.data.take 11 ≠ "attributes_".data) :
    "attributes_" ++ k ≠ t := by
  intro he
  apply h
  rw [← he, String.data_append]
  have h11 : ("attributes_" : String).data.length = 11 := by decide
  rw [← h11, List.take_left]

/-- Attribute fields collide with none of the fixed field names. -/
theorem no_attr_collision (f : Field) (hk : ∃ k, f.name = "attributes_" ++ k)
    (pairs : List (String × DataType))
    (hp : ∀ p ∈ pairs, p.1.data.take 11 ≠ "attributes_".data) :
    ∀ p ∈ pairs, f.name = p.1 → f.dataType = p.2 := by
  intro p hpmem heq
  obtain ⟨k, hk⟩ := hk
  exact absurd (hk ▸ heq) (attributes_prefix_ne k p.1 (hp p hpmem))

/-- Unpacking a successful `infer_event_schema`. -/
theorem infer_event_schema_inv {spans : List Span} {es : EntitySchema}
    {ec : Nat} (h : infer_event_schema spans = some (es, ec)) :
    ∃ fs, add_attribute_fields (inferEventAttributeSchema spans).2
        eventFixedFields = some fs ∧
      es = ⟨fs, (inferEventAttributeSchema spans).2⟩ := by
  unfold infer_event_schema at h
  rcases hie : inferEventAttributeSchema spans with ⟨c, ats⟩
  rw [hie] at h
  simp only [bind, Option.bind_eq_some, Option.some.injEq] at h
  obtain ⟨fs, haf, hpair⟩ := h
  have h1 : es = ⟨fs, ats⟩ := (congrArg Prod.fst hpair).symm
  exact ⟨fs, haf, h1⟩

/-- Unpacking a successful `infer_link_schema`. -/
theorem infer_link_schema_inv {spans : List Span} {ls : EntitySchema}
    {lc : Nat} (h : infer_link_schema spans = some (ls, lc)) :
    ∃ fs, add_attribute_fields (inferLinkAttributeSchema spans).2
        linkFixedFields = some fs ∧
      ls = ⟨fs, (inferLinkAttributeSchema spans).2⟩ := by
  unfold infer_link_schema at h
  rcases hie : inferLinkAttributeSchema spans with ⟨c, ats⟩
  rw [hie] at h
  simp only [bind, Option.bind_eq_some, Option.some.injEq] at h
  obtain ⟨fs, haf, hpair⟩ := h
  have h1 : ls = ⟨fs, ats⟩ := (congrArg Prod.fst hpair).symm
  exact ⟨fs, haf, h1⟩

/-- Unpacking a successful column-oriented spans serialization. -/
theorem serialize_spans_column_inv {dc : DataColumns} {buf : Buffer}
    (h : serialize_spans_from_column_oriented_data_source dc = some buf) :
    ∃ res batch,
      attribute_fields "attributes_" dc.spans.attributes_column
        spanFixedFields (spanFixedArraysColumn dc) = some res ∧
      RecordBatch.tryNew res.1 res.2 = some batch ∧
      buf = Buffer.stream batch := by
  unfold serialize_spans_from_column_oriented_data_source at h
  simp only [bind, Option.bind_eq_some, Option.some.injEq] at h
  obtain ⟨⟨fs, cs⟩, haf, batch, htn, hb⟩ := h
  exact ⟨(fs, cs), batch, haf, htn, hb.symm⟩

/-- Unpacking a successful column-oriented events serialization. -/
theorem serialize_events_column_inv {dc : DataColumns} {buf : Buffer}
    (h : serialize_events_from_column_oriented_data_source dc = some buf) :
    ∃ res batch,
      attribute_fields "attributes_" dc.events.attributes_column
        eventFixedFields (eventFixedArraysColumn dc) = some res ∧
      RecordBatch.tryNew res.1 res.2 = some batch ∧
      buf = Buffer.stream batch := by
  unfold serialize_events_from_column_oriented_data_source at h
  simp only [bind, Option.bind_eq_some, Option.some.injEq] at h
  obtain ⟨⟨fs, cs⟩, haf, batch, htn, hb⟩ := h
  exact ⟨(fs, cs), batch, haf, htn, hb.symm⟩

/-- Unpacking a successful column-oriented links serialization. -/
theorem serialize_links_column_inv {dc : DataColumns} {buf : Buffer}
    (h : serialize_links_from_column_oriented_data_source dc = some buf) :
    ∃ res batch,
      attribute_fields "attributes_" dc.links.attributes_column
        linkFixedFields (linkFixedArraysColumn dc) = some res ∧
      RecordBatch.tryNew res.1 res.2 = some batch ∧
      buf = Buffer.stream batch := by
  unfold serialize_links_from_column_oriented_data_source at h
  simp only [bind, Option.bind_eq_some, Option.some.injEq] at h
  obtain ⟨⟨fs, cs⟩, haf, batch, htn, hb⟩ := h
  exact ⟨(fs, cs), batch, haf, htn, hb.symm⟩



/-- **C7** (amended).  In every emitted table schema, on both paths: the
spans table's `trace_id`, `span_id` and `parent_span_id` are Binary,
`name` and `trace_state` UTF-8, `kind` an unsigned **32-bit** integer (not
8-bit), timestamps unsigned 64-bit, dropped counters and `id` unsigned
32-bit; the events table's `id` is unsigned 32-bit, `time_unix_nano`
unsigned 64-bit, `name` UTF-8; the links table's `trace_id` and `span_id`
are **UTF-8** (not Binary), `trace_state` UTF-8, `id` and the dropped
counter unsigned 32-bit. -/
theorem c7_amended_fixed_field_physical_types (spans : List Span) (g : Bool) :
    (∀ es, infer_span_schema spans g = some es →
      ∀ f ∈ es.schema, ∀ p ∈ ([("start_time_unix_nano", DataType.uint64),
        ("end_time_unix_nano", .uint64), ("trace_id", .binary),
        ("span_id", .binary), ("trace_state", .utf8),
        ("parent_span_id", .binary), ("name", .utf8), ("kind", .uint32),
        ("dropped_attributes_count", .uint32),
        ("dropped_events_count", .uint32),
        ("dropped_links_count", .uint32),
        ("id", .uint32)] : List (String × DataType)),
        f.name = p.1 → f.dataType = p.2) ∧
    (∀ es ec, infer_event_schema spans = some (es, ec) →
      ∀ f ∈ es.schema, ∀ p ∈ ([("id", DataType.uint32),
        ("time_unix_nano", .uint64), ("name", .utf8),
        ("dropped_attributes_count", .uint32)] : List (String × DataType)),
        f.name = p.1 → f.dataType = p.2) ∧
    (∀ ls lc, infer_link_schema spans = some (ls, lc) →
      ∀ f ∈ ls.schema, ∀ p ∈ ([("id", DataType.uint32),
        ("trace_id", .utf8), ("span_id", .utf8), ("trace_state", .utf8),
        ("dropped_attributes_count", .uint32)] : List (String × DataType)),
        f.name = p.1 → f.dataType = p.2) ∧
    (∀ (dc : DataColumns) (b : RecordBatch),
      serialize_spans_from_column_oriented_data_source dc =
        some (Buffer.stream b) →
      ∀ f ∈ b.schema, ∀ p ∈ ([("trace_id", DataType.binary),
        ("span_id", .binary), ("parent_span_id", .binary),
        ("kind", .uint32), ("name", .utf8),
        ("trace_state", .utf8)] : List (String × DataType)),
        f.name = p.1 → f.dataType = p.2) ∧
    (∀ (dc : DataColumns) (b : RecordBatch),
      serialize_events_from_column_oriented_data_source dc =
        some (Buffer.stream b) →
      ∀ f ∈ b.schema, ∀ p ∈ ([("id", DataType.uint32),
        ("time_unix_nano", .uint64), ("name", .utf8),
        ("dropped_attributes_count", .uint32)] : List (String × DataType)),
        f.name = p.1 → f.dataType = p.2) ∧
    (∀ (dc : DataColumns) (b : RecordBatch),
      serialize_links_from_column_oriented_data_source dc =
        some (Buffer.stream b) →
      ∀ f ∈ b.schema, ∀ p ∈ ([("id", DataType.uint32),
        ("trace_id", .utf8), ("span_id", .utf8),
        ("trace_state", .utf8)] : List (String × DataType)),
        f.name = p.1 → f.dataType = p.2) := by
  refine ⟨?_, ?_, ?_, ?_, ?_, ?_⟩
  · intro es hes f hf
    obtain ⟨fs, haf, rfl⟩ := infer_span_schema_inv spans g es hes
    obtain ⟨extra, rfl, hpre⟩ := add_attribute_fields_shape _ _ _ haf
    rw [List.append_assoc] at hf
    simp only [List.mem_append] at hf
    rcases hf with hf | hf | hf
    · revert f
      decide
    · cases g with
      | false => simp at hf
      | true =>
        simp only [if_true] at hf
        revert f
        decide
    · exact no_attr_collision f (hpre f hf) _ (by decide)
  · intro es ec hes f hf
    obtain ⟨fs, haf, rfl⟩ := infer_event_schema_inv hes
    obtain ⟨extra, rfl, hpre⟩ := add_attribute_fields_shape _ _ _ haf
    simp only [List.mem_append] at hf
    rcases hf with hf | hf
    · revert f; decide
    · exact no_attr_collision f (hpre f hf) _ (by decide)
  · intro ls lc hls f hf
    obtain ⟨fs, haf, rfl⟩ := infer_link_schema_inv hls
    obtain ⟨extra, rfl, hpre⟩ := add_attribute_fields_shape _ _ _ haf
    simp only [List.mem_append] at hf
    rcases hf with hf | hf
    · revert f; decide
    · exact no_attr_collision f (hpre f hf) _ (by decide)
  · intro dc b hb f hf
    obtain ⟨res, batch, haf, htn, hbb⟩ := serialize_spans_column_inv hb
    cases hbb
    obtain ⟨hsch, _, _, _⟩ := tryNew_eq_some htn
    obtain ⟨extraF, extraC, h1, h2, hpre⟩ :=
      attribute_fields_shape _ _ _ _ _ haf
    rw [hsch, h1, List.mem_append] at hf
    rcases hf with hf | hf
    · revert f; decide
    · exact no_attr_collision f (hpre f hf) _ (by decide)
  · intro dc b hb f hf
    obtain ⟨res, batch, haf, htn, hbb⟩ := serialize_events_column_inv hb
    cases hbb
    obtain ⟨hsch, _, _, _⟩ := tryNew_eq_some htn
    obtain ⟨extraF, extraC, h1, h2, hpre⟩ :=
      attribute_fields_shape _ _ _ _ _ haf
    rw [hsch, h1, List.mem_append] at hf
    rcases hf with hf | hf
    · revert f; decide
    · exact no_attr_collision f (hpre f hf) _ (by decide)
  · intro dc b hb f hf
    obtain ⟨res, batch, haf, htn, hbb⟩ := serialize_links_column_inv hb
    cases hbb
    obtain ⟨hsch, _, _, _⟩ := tryNew_eq_some htn
    obtain ⟨extraF, extraC, h1, h2, hpre⟩ :=
      attribute_fields_shape _ _ _ _ _ haf
    rw [hsch, h1, List.mem_append] at hf
    rcases hf with hf | hf
    · revert f; decide
    · exact no_attr_collision f (hpre f hf) _ (by decide)

/-- Witness for the amended C7 theorem: the `trace_id` field of the link
schema inferred from `c7Batch` is UTF-8. -/
theorem c7_amended_fixed_field_physical_types_witness :
    (Field.mk "trace_id" DataType.utf8 false).dataType = DataType.utf8 :=
  (c7_amended_fixed_field_physical_types c7Batch false).2.2.1
    ⟨linkFixedFields, []⟩ 1 (by decide)
    ⟨"trace_id", DataType.utf8, false⟩ (by decide)
    ("trace_id", DataType.utf8) (by decide) rfl



/-- The flattened event list has one entry per event, whatever the
enumeration start. -/
theorem flattenEvents_length_aux (g : Nat × Span → List (Nat × Event))
    (hg : ∀ p, (g p).length = (p.2.events.getD []).length) :
    ∀ (n : Nat) (spans : List Span),
      (((List.enumFrom n spans).filter
        (fun p => p.2.events.isSome)).flatMap g).length =
        totalEventCount spans
  | n, [] => by simp [totalEventCount]
  | n, s :: rest => by
    rw [List.enumFrom_cons]
    rw [List.filter_cons]
    cases hs : s.events with
    | none =>
      simp only [hs, Option.isSome_none, Bool.false_eq_true, if_false]
      rw [flattenEvents_length_aux g hg (n + 1) rest]
      simp [totalEventCount, hs]
    | some evs =>
      simp only [hs, Option.isSome_some, if_true]
      rw [List.flatMap_cons, List.length_append,
        flattenEvents_length_aux g hg (n + 1) rest, hg]
      simp [totalEventCount, hs]

/-- The flattened event list has one entry per event of the batch. -/
theorem flattenEvents_length (spans : List Span) :
    (flattenEvents spans).length = totalEventCount spans := by
  unfold flattenEvents
  rw [show spans.enum = List.enumFrom 0 spans from rfl]
  exact flattenEvents_length_aux _ (fun p => by simp) 0 spans

/-- The flattened link list has one entry per link, whatever the
enumeration start. -/
theorem flattenLinks_length_aux (g : Nat × Span → List (Nat × Link))
    (hg : ∀ p, (g p).length = (p.2.links.getD []).length) :
    ∀ (n : Nat) (spans : List Span),
      (((List.enumFrom n spans).filter
        (fun p => p.2.links.isSome)).flatMap g).length =
        totalLinkCount spans
  | n, [] => by simp [totalLinkCount]
  | n, s :: rest => by
    rw [List.enumFrom_cons]
    rw [List.filter_cons]
    cases hs : s.links with
    | none =>
      simp only [hs, Option.isSome_none, Bool.false_eq_true, if_false]
      rw [flattenLinks_length_aux g hg (n + 1) rest]
      simp [totalLinkCount, hs]
    | some ls =>
      simp only [hs, Option.isSome_some, if_true]
      rw [List.flatMap_cons, List.length_append,
        flattenLinks_length_aux g hg (n + 1) rest, hg]
      simp [totalLinkCount, hs]

/-- The flattened link list has one entry per link of the batch. -/
theorem flattenLinks_length (spans : List Span) :
    (flattenLinks spans).length = totalLinkCount spans := by
  unfold flattenLinks
  rw [show spans.enum = List.enumFrom 0 spans from rfl]
  exact flattenLinks_length_aux _ (fun p => by simp) 0 spans



/-- Unpacking a successful row-oriented events serialization. -/
theorem serialize_events_row_inv {es : EntitySchema} {spans : List Span}
    {buf : Buffer}
    (h : serialize_events_from_row_oriented_data_source es spans =
      some buf) :
    ∃ cols batch,
      add_attribute_columns
        ((flattenEvents spans).map (fun p => some p.2.attributes)) es
        (eventFixedArraysRow (flattenEvents spans)) = some cols ∧
      RecordBatch.tryNew es.schema cols = some batch ∧
      buf = Buffer.stream batch := by
  unfold serialize_events_from_row_oriented_data_source at h
  simp only [bind, Option.bind_eq_some, Option.some.injEq] at h
  obtain ⟨cols, hac, batch, htn, hb⟩ := h
  exact ⟨cols, batch, hac, htn, hb.symm⟩

/-- Unpacking a successful row-oriented links serialization. -/
theorem serialize_links_row_inv {ls : EntitySchema} {spans : List Span}
    {buf : Buffer}
    (h : serialize_links_from_row_oriented_data_source ls spans =
      some buf) :
    ∃ cols batch,
      add_attribute_columns
        ((flattenLinks spans).map (fun p => some p.2.attributes)) ls
        (linkFixedArraysRow (flattenLinks spans)) = some cols ∧
      RecordBatch.tryNew ls.schema cols = some batch ∧
      buf = Buffer.stream batch := by
  unfold serialize_links_from_row_oriented_data_source at h
  simp only [bind, Option.bind_eq_some, Option.some.injEq] at h
  obtain ⟨cols, hac, batch, htn, hb⟩ := h
  exact ⟨cols, batch, hac, htn, hb.symm⟩

/-- Unpacking a successful envelope encode on the column-oriented path. -/
theorem serialize_column_inv {spans : List Span} {env : Envelope}
    (h : serialize_column_oriented_data_source spans = some env) :
    ∃ dc ebuf lbuf sbuf,
      to_data_columns spans = some dc ∧
      serialize_events_from_column_oriented_data_source dc = some ebuf ∧
      serialize_links_from_column_oriented_data_source dc = some lbuf ∧
      serialize_spans_from_column_oriented_data_source dc = some sbuf ∧
      env = ⟨sbuf, ebuf, lbuf⟩ := by
  unfold serialize_column_oriented_data_source at h
  simp only [bind, Option.bind_eq_some, Option.some.injEq] at h
  obtain ⟨dc, hdc, ebuf, heb, lbuf, hlb, sbuf, hsb, henv⟩ := h
  exact ⟨dc, ebuf, lbuf, sbuf, hdc, heb, hlb, hsb, henv.symm⟩

/-- `add_attribute_columns` appends one array per attribute field after
the arrays it was given. -/
theorem add_attribute_columns_shape :
    ∀ (ats : AttrSchema) (sch : List Field)
      (rows : List (Option Attributes)) (cols cols' : List ArrowArray),
      add_attribute_columns rows ⟨sch, ats⟩ cols = some cols' →
      ∃ extra, cols' = cols ++ extra
  | [], sch, rows, cols, cols', h => by
    cases h
    exact ⟨[], by simp⟩
  | (k, fi) :: rest, sch, rows, cols, cols', h => by
    have step : ∀ (c₀ : ArrowArray),
        add_attribute_columns rows ⟨sch, rest⟩ (cols ++ [c₀]) = some cols' →
        ∃ extra, cols' = cols ++ extra := by
      intro c₀ hrest
      obtain ⟨extra, he⟩ :=
        add_attribute_columns_shape rest sch rows _ cols' hrest
      exact ⟨c₀ :: extra, by simpa using he⟩
    cases hft : fi.field_type <;> rw [add_attribute_columns] at h <;>
      rw [List.foldlM_cons] at h <;> rw [hft] at h
    case u64 =>
      cases hb : buildPrimitiveColumn Nat k rows JNum.as_u64 <;>
        rw [hb] at h
      · simp at h
      · exact step _ h
    case i64 =>
      cases hb : buildPrimitiveColumn Int k rows JNum.as_i64 <;>
        rw [hb] at h
      · simp at h
      · exact step _ h
    case f64 =>
      cases hb : buildPrimitiveColumn ℚ k rows JNum.as_f64 <;>
        rw [hb] at h
      · simp at h
      · exact step _ h
    case string =>
      by_cases hd : fi.is_dictionary <;> simp only [hd, Bool.false_eq_true,
        ite_true, ite_false] at h
      · cases hkt : dictKeyType fi.dictionary_values.length <;>
          rw [hkt] at h
        · simp at h
        · exact step _ h
      · exact step _ h
    case bool =>
      exact step _ h



/-- A batch has no events exactly when each span has none. -/
theorem totalEventCount_eq_zero_iff (spans : List Span) :
    totalEventCount spans = 0 ↔ ∀ s ∈ spans, s.events.getD [] = [] := by
  unfold totalEventCount
  rw [List.sum_eq_zero_iff]
  constructor
  · intro h s hs
    have := h _ (List.mem_map_of_mem _ hs)
    exact List.eq_nil_of_length_eq_zero this
  · intro h n hn
    obtain ⟨s, hs, rfl⟩ := List.mem_map.mp hn
    rw [h s hs]
    rfl

/-- A batch has no links exactly when each span has none. -/
theorem totalLinkCount_eq_zero_iff (spans : List Span) :
    totalLinkCount spans = 0 ↔ ∀ s ∈ spans, s.links.getD [] = [] := by
  unfold totalLinkCount
  rw [List.sum_eq_zero_iff]
  constructor
  · intro h s hs
    have := h _ (List.mem_map_of_mem _ hs)
    exact List.eq_nil_of_length_eq_zero this
  · intro h n hn
    obtain ⟨s, hs, rfl⟩ := List.mem_map.mp hn
    rw [h s hs]
    rfl

/-- With no events there are no inferred event attribute fields. -/
theorem inferEventAttributeSchema_empty (spans : List Span)
    (h : ∀ s ∈ spans, s.events.getD [] = []) :
    inferEventAttributeSchema spans = (0, []) := by
  unfold inferEventAttributeSchema
  induction spans with
  | nil => rfl
  | cons s rest ih =>
    have hs := h s (by simp)
    rw [List.foldl_cons]
    cases he : s.events with
    | none =>
      exact ih (fun x hx => h x (by simp [hx]))
    | some evs =>
      have hevs : evs = [] := by rw [he] at hs; exact hs
      subst hevs
      exact ih (fun x hx => h x (by simp [hx]))

/-- With no links there are no inferred link attribute fields. -/
theorem inferLinkAttributeSchema_empty (spans : List Span)
    (h : ∀ s ∈ spans, s.links.getD [] = []) :
    inferLinkAttributeSchema spans = (0, []) := by
  unfold inferLinkAttributeSchema
  induction spans with
  | nil => rfl
  | cons s rest ih =>
    have hs := h s (by simp)
    rw [List.foldl_cons]
    cases he : s.links with
    | none =>
      exact ih (fun x hx => h x (by simp [hx]))
    | some ls =>
      have hls : ls = [] := by rw [he] at hs; exact hs
      subst hls
      exact ih (fun x hx => h x (by simp [hx]))



/-- Unpacking one successful `to_data_columns` span step. -/
theorem processSpan_inv {dc dc' : DataColumns} {i : Nat} {sp : Span}
    (h : processSpan dc (i, sp) = some dc') :
    ∃ sa ec lc,
      attributes_to_data_columns sp.attributes dc.spans.attributes_column =
        some sa ∧
      processEvents i (sp.events.getD []) dc.events = some ec ∧
      processLinks i (sp.links.getD []) dc.links = some lc ∧
      dc'.events = ec ∧ dc'.links = lc := by
  unfold processSpan at h
  simp only [bind, Option.bind_eq_some, Option.some.injEq] at h
  obtain ⟨sa, hsa, ec, hec, lc, hlc, heq⟩ := h
  exact ⟨sa, ec, lc, hsa, hec, hlc, by rw [← heq], by rw [← heq]⟩

/-- Spans without events leave the event columns untouched. -/
theorem foldlM_processSpan_events_const :
    ∀ (l : List (Nat × Span)) (dc dc' : DataColumns),
      (∀ p ∈ l, p.2.events.getD [] = []) →
      l.foldlM processSpan dc = some dc' →
      dc'.events = dc.events
  | [], dc, dc', _, h => by cases h; rfl
  | p :: rest, dc, dc', hev, h => by
    rw [List.foldlM_cons] at h
    simp only [bind, Option.bind_eq_some] at h
    obtain ⟨dc₁, hstep, hrest⟩ := h
    obtain ⟨i, sp⟩ := p
    obtain ⟨sa, ec, lc, hsa, hec, hlc, he, hl⟩ := processSpan_inv hstep
    have hne : sp.events.getD [] = [] := hev (i, sp) (by simp)
    rw [hne] at hec
    have hec2 : ec = dc.events := by
      unfold processEvents at hec
      cases hec
      rfl
    rw [foldlM_processSpan_events_const rest dc₁ dc'
      (fun q hq => hev q (by simp [hq])) hrest, he, hec2]

/-- Spans without links leave the link columns untouched. -/
theorem foldlM_processSpan_links_const :
    ∀ (l : List (Nat × Span)) (dc dc' : DataColumns),
      (∀ p ∈ l, p.2.links.getD [] = []) →
      l.foldlM processSpan dc = some dc' →
      dc'.links = dc.links
  | [], dc, dc', _, h => by cases h; rfl
  | p :: rest, dc, dc', hlk, h => by
    rw [List.foldlM_cons] at h
    simp only [bind, Option.bind_eq_some] at h
    obtain ⟨dc₁, hstep, hrest⟩ := h
    obtain ⟨i, sp⟩ := p
    obtain ⟨sa, ec, lc, hsa, hec, hlc, he, hl⟩ := processSpan_inv hstep
    have hnl : sp.links.getD [] = [] := hlk (i, sp) (by simp)
    rw [hnl] at hlc
    have hlc2 : lc = dc.links := by
      unfold processLinks at hlc
      cases hlc
      rfl
    rw [foldlM_processSpan_links_const rest dc₁ dc'
      (fun q hq => hlk q (by simp [hq])) hrest, hl, hlc2]

/-- A pair of an enumerated list carries an element of the list. -/
theorem snd_mem_of_mem_enum {α : Type} {p : Nat × α} {l : List α}
    (h : p ∈ l.enum) : p.2 ∈ l := by
  have := List.mem_map_of_mem Prod.snd h
  rwa [List.enum_map_snd] at this



/-- Event schema of a batch without events: the four fixed fields. -/
theorem infer_event_schema_no_events (spans : List Span)
    (h : ∀ s ∈ spans, s.events.getD [] = []) :
    infer_event_schema spans = some (⟨eventFixedFields, []⟩, 0) := by
  unfold infer_event_schema
  rw [inferEventAttributeSchema_empty spans h]
  rfl

/-- Link schema of a batch without links: the five fixed fields. -/
theorem infer_link_schema_no_links (spans : List Span)
    (h : ∀ s ∈ spans, s.links.getD [] = []) :
    infer_link_schema spans = some (⟨linkFixedFields, []⟩, 0) := by
  unfold infer_link_schema
  rw [inferLinkAttributeSchema_empty spans h]
  rfl

/-- The row-oriented events buffer of a childless batch: a stream holding
the fixed schema over four empty arrays. -/
theorem serialize_events_row_no_events (spans : List Span)
    (hfe : flattenEvents spans = []) :
    serialize_events_from_row_oriented_data_source
      ⟨eventFixedFields, []⟩ spans =
      some (Buffer.stream ⟨eventFixedFields,
        [.uint32Arr [], .uint64Arr [], .utf8Arr [], .uint32Arr []]⟩) := by
  unfold serialize_events_from_row_oriented_data_source
  rw [hfe]
  rfl

/-- The row-oriented links buffer of a childless batch. -/
theorem serialize_links_row_no_links (spans : List Span)
    (hfl : flattenLinks spans = []) :
    serialize_links_from_row_oriented_data_source
      ⟨linkFixedFields, []⟩ spans =
      some (Buffer.stream ⟨linkFixedFields,
        [.uint32Arr [], .utf8Arr [], .utf8Arr [], .utf8Arr [],
         .uint32Arr []]⟩) := by
  unfold serialize_links_from_row_oriented_data_source
  rw [hfl]
  rfl

/-- The column-oriented events buffer when the event columns are empty. -/
theorem serialize_events_column_no_events (dc : DataColumns)
    (h : dc.events = ⟨[], [], [], [], []⟩) :
    serialize_events_from_column_oriented_data_source dc =
      some (Buffer.stream ⟨eventFixedFields,
        [.uint32Arr [], .uint64Arr [], .utf8Arr [], .uint32Arr []]⟩) := by
  unfold serialize_events_from_column_oriented_data_source
    eventFixedArraysColumn
  rw [h]
  rfl

/-- The column-oriented links buffer when the link columns are empty. -/
theorem serialize_links_column_no_links (dc : DataColumns)
    (h : dc.links = ⟨[], [], [], [], [], []⟩) :
    serialize_links_from_column_oriented_data_source dc =
      some (Buffer.stream ⟨linkFixedFields,
        [.uint32Arr [], .utf8Arr [], .utf8Arr [], .utf8Arr [],
         .uint32Arr []]⟩) := by
  unfold serialize_links_from_column_oriented_data_source
    linkFixedArraysColumn
  rw [h]
  rfl



/-- **C8** (amended).  For every batch in which no span carries events or
links, both encoding paths succeed in placing *non-empty* events and links
buffers in the envelope: each is an Arrow IPC stream carrying the table's
fixed-field schema and a zero-row batch (zero-length buffers would only
arise from the unused `serialize` helper on an empty field list; the live
serializers always write the stream). -/
theorem c8_amended_childless_buffers_are_zero_row_streams (spans : List Span)
    (hev : totalEventCount spans = 0) (hlk : totalLinkCount spans = 0) :
    (∀ env, serialize_row_oriented_data_source spans = some env →
      env.events = Buffer.stream ⟨eventFixedFields,
        [.uint32Arr [], .uint64Arr [], .utf8Arr [], .uint32Arr []]⟩ ∧
      env.links = Buffer.stream ⟨linkFixedFields,
        [.uint32Arr [], .utf8Arr [], .utf8Arr [], .utf8Arr [],
         .uint32Arr []]⟩ ∧
      env.events ≠ Buffer.empty ∧ env.links ≠ Buffer.empty) ∧
    (∀ env, serialize_column_oriented_data_source spans = some env →
      env.events = Buffer.stream ⟨eventFixedFields,
        [.uint32Arr [], .uint64Arr [], .utf8Arr [], .uint32Arr []]⟩ ∧
      env.links = Buffer.stream ⟨linkFixedFields,
        [.uint32Arr [], .utf8Arr [], .utf8Arr [], .utf8Arr [],
         .uint32Arr []]⟩ ∧
      env.events ≠ Buffer.empty ∧ env.links ≠ Buffer.empty) ∧
    RecordBatch.numRows ⟨eventFixedFields,
      [.uint32Arr [], .uint64Arr [], .utf8Arr [], .uint32Arr []]⟩ = 0 ∧
    RecordBatch.numRows ⟨linkFixedFields,
      [.uint32Arr [], .utf8Arr [], .utf8Arr [], .utf8Arr [],
       .uint32Arr []]⟩ = 0 := by
  have hse : ∀ s ∈ spans, s.events.getD [] = [] :=
    (totalEventCount_eq_zero_iff spans).mp hev
  have hsl : ∀ s ∈ spans, s.links.getD [] = [] :=
    (totalLinkCount_eq_zero_iff spans).mp hlk
  have hfe : flattenEvents spans = [] :=
    List.eq_nil_of_length_eq_zero (by rw [flattenEvents_length]; exact hev)
  have hfl : flattenLinks spans = [] :=
    List.eq_nil_of_length_eq_zero (by rw [flattenLinks_length]; exact hlk)
  refine ⟨?_, ?_, by decide, by decide⟩
  · intro env henv
    obtain ⟨es, ec, ls, lc, ss, ebuf, lbuf, sbuf, hes, hls, hss, heb, hlb,
      hsb, rfl⟩ := serialize_row_inv henv
    rw [infer_event_schema_no_events spans hse, Option.some.injEq] at hes
    rw [infer_link_schema_no_links spans hsl, Option.some.injEq] at hls
    have hes1 : es = ⟨eventFixedFields, []⟩ := (congrArg Prod.fst hes).symm
    have hls1 : ls = ⟨linkFixedFields, []⟩ := (congrArg Prod.fst hls).symm
    rw [hes1, serialize_events_row_no_events spans hfe,
      Option.some.injEq] at heb
    rw [hls1, serialize_links_row_no_links spans hfl,
      Option.some.injEq] at hlb
    exact ⟨heb.symm ▸ rfl, hlb.symm ▸ rfl, by rw [← heb]; simp,
      by rw [← hlb]; simp⟩
  · intro env henv
    obtain ⟨dc, ebuf, lbuf, sbuf, hdc, heb, hlb, hsb, rfl⟩ :=
      serialize_column_inv henv
    unfold to_data_columns at hdc
    have hpe : ∀ p ∈ spans.enum, p.2.events.getD [] = [] :=
      fun p hp => hse p.2 (snd_mem_of_mem_enum hp)
    have hpl : ∀ p ∈ spans.enum, p.2.links.getD [] = [] :=
      fun p hp => hsl p.2 (snd_mem_of_mem_enum hp)
    have hde := foldlM_processSpan_events_const spans.enum _ dc hpe hdc
    have hdl := foldlM_processSpan_links_const spans.enum _ dc hpl hdc
    have hde2 : dc.events = ⟨[], [], [], [], []⟩ := by
      rw [hde]
      show EventDataColumns.mk [] [] []
        (build_attribute_columns (inferEventAttributeSchema spans).2) [] = _
      rw [inferEventAttributeSchema_empty spans hse]
      rfl
    have hdl2 : dc.links = ⟨[], [], [], [], [], []⟩ := by
      rw [hdl]
      show LinkDataColumns.mk [] [] [] []
        (build_attribute_columns (inferLinkAttributeSchema spans).2) [] = _
      rw [inferLinkAttributeSchema_empty spans hsl]
      rfl
    rw [serialize_events_column_no_events dc hde2, Option.some.injEq] at heb
    rw [serialize_links_column_no_links dc hdl2, Option.some.injEq] at hlb
    exact ⟨heb.symm ▸ rfl, hlb.symm ▸ rfl, by rw [← heb]; simp,
      by rw [← hlb]; simp⟩

/-- Witness for the amended C8 theorem on `c8Batch`. -/
theorem c8_amended_childless_buffers_witness :
    totalEventCount c8Batch = 0 ∧ totalLinkCount c8Batch = 0 ∧
    (∀ env, serialize_row_oriented_data_source c8Batch = some env →
      env.events ≠ Buffer.empty) := by
  refine ⟨by decide, by decide, fun env henv => ?_⟩
  exact (((c8_amended_childless_buffers_are_zero_row_streams c8Batch
    (by decide) (by decide)).1 env henv).2.2).1

/-- **C9** (confirmed).  For a key whose non-null values are, in order, an
unsigned integer fitting in `u64`, a negative integer fitting in `i64`,
and a non-integral float, the inferred column type is F64 (U64 at the
first value, promoted to I64 at the second, to F64 at the third), the
emitted schema field is a nullable Float64 `attributes_<key>`, and the
emitted column is a Float64 array holding the three values with no
nulls. -/
theorem c9_unsigned_signed_float_promotes_to_f64 (k : String)
    (s1 s2 s3 : Span) (a : Nat) (b : Int) (q : ℚ)
    (h1 : s1.attributes = some [(k, .num (.posInt a))])
    (h2 : s2.attributes = some [(k, .num (.negInt b))])
    (h3 : s3.attributes = some [(k, .num (.float q))])
    (ha : a < 2 ^ 64) (hb : -(2 ^ 63) ≤ b) (hb2 : b < 0) :
    inferSpanAttributeSchema [s1, s2, s3] = [(k, ⟨3, FieldType.f64, []⟩)] ∧
    add_attribute_columns ([s1, s2, s3].map (fun s => s.attributes))
      ⟨[], [(k, ⟨3, FieldType.f64, []⟩)]⟩ [] =
      some [ArrowArray.float64Arr
        [some (a : ℚ), some ((b : ℚ)), some q]] ∧
    add_attribute_fields [(k, ⟨3, FieldType.f64, []⟩)] [] =
      some [⟨"attributes_" ++ k, .float64, true⟩] := by
  refine ⟨?_, ?_, ?_⟩
  · simp [inferSpanAttributeSchema, inferSpansFrom, h1, h2, h3,
      inferAttributeTypes, inferOne, entryModifyOrInsert,
      JNum.is_u64, JNum.is_i64, JNum.is_f64]
  · simp [add_attribute_columns, h1, h2, h3, buildPrimitiveColumn,
      List.mapM, List.mapM.loop, Attributes.get, List.find?,
      JNum.as_f64, JValue.as_f64]
  · simp [add_attribute_fields]

/-- Witness for the C9 theorem on `c9Batch` (values 5, -1, 0.5). -/
theorem c9_unsigned_signed_float_promotes_to_f64_witness :
    inferSpanAttributeSchema c9Batch = [("x", ⟨3, FieldType.f64, []⟩)] ∧
    add_attribute_columns (c9Batch.map (fun s => s.attributes))
      ⟨[], [("x", ⟨3, FieldType.f64, []⟩)]⟩ [] =
      some [ArrowArray.float64Arr
        [some ((5 : Nat) : ℚ), some ((-1 : Int) : ℚ), some (1 / 2 : ℚ)]] :=
  ⟨(c9_unsigned_signed_float_promotes_to_f64 "x" _ _ _ 5 (-1) (1 / 2)
      rfl rfl rfl (by decide) (by decide) (by decide)).1,
   (c9_unsigned_signed_float_promotes_to_f64 "x" _ _ _ 5 (-1) (1 / 2)
      rfl rfl rfl (by decide) (by decide) (by decide)).2.1⟩

/-- The row count of a batch is the length of its first column. -/
theorem numRows_of_head (b : RecordBatch) (a : ArrowArray)
    (rest : List ArrowArray) (h : b.columns = a :: rest) :
    b.numRows = a.length := by
  simp [RecordBatch.numRows, h]

/-- Decoding an envelope of three non-empty streams with at least one
column each yields the three batches. -/
theorem deserialize_streams (b1 b2 b3 : RecordBatch)
    (h1 : b1.numColumns > 0) (h2 : b2.numColumns > 0)
    (h3 : b3.numColumns > 0) :
    deserialize ⟨.stream b1, .stream b2, .stream b3⟩ =
      some (b1, some b2, some b3) := by
  unfold deserialize
  simp [h1, h2, h3]

/-- Each processed event pushes one `id`. -/
theorem processEvents_id_length :
    ∀ (evs : List Event) (i : Nat) (dcE ec : EventDataColumns),
      processEvents i evs dcE = some ec →
      ec.id_column.length = dcE.id_column.length + evs.length
  | [], i, dcE, ec, h => by cases h; simp
  | e :: rest, i, dcE, ec, h => by
    rw [processEvents, List.foldlM_cons] at h
    simp only [bind, Option.bind_eq_some] at h
    obtain ⟨dc1, hstep, hrest⟩ := h
    simp only [bind, Option.bind_eq_some, Option.some.injEq] at hstep
    obtain ⟨attrs, hattrs, hdc1⟩ := hstep
    have := processEvents_id_length rest i dc1 ec hrest
    rw [this, ← hdc1]
    simp
    omega
  
/-- Each processed link pushes one `id`. -/
theorem processLinks_id_length :
    ∀ (ls : List Link) (i : Nat) (dcL lc : LinkDataColumns),
      processLinks i ls dcL = some lc →
      lc.id_column.length = dcL.id_column.length + ls.length
  | [], i, dcL, lc, h => by cases h; simp
  | e :: rest, i, dcL, lc, h => by
    rw [processLinks, List.foldlM_cons] at h
    simp only [bind, Option.bind_eq_some] at h
    obtain ⟨dc1, hstep, hrest⟩ := h
    simp only [bind, Option.bind_eq_some, Option.some.injEq] at hstep
    obtain ⟨attrs, hattrs, hdc1⟩ := hstep
    have := processLinks_id_length rest i dc1 lc hrest
    rw [this, ← hdc1]
    simp
    omega

/-- One `to_data_columns` step grows the span fixed columns by one row and
the child `id` columns by the span's child counts. -/
theorem processSpan_lengths {dc dc' : DataColumns} {i : Nat} {sp : Span}
    (h : processSpan dc (i, sp) = some dc') :
    dc'.spans.start_time_unix_nano_column.length =
      dc.spans.start_time_unix_nano_column.length + 1 ∧
    dc'.events.id_column.length =
      dc.events.id_column.length + (sp.events.getD []).length ∧
    dc'.links.id_column.length =
      dc.links.id_column.length + (sp.links.getD []).length := by
  unfold processSpan at h
  simp only [bind, Option.bind_eq_some, Option.some.injEq] at h
  obtain ⟨sa, hsa, ec, hec, lc, hlc, heq⟩ := h
  refine ⟨?_, ?_, ?_⟩
  · rw [← heq]; simp
  · rw [← heq]
    exact processEvents_id_length _ _ _ _ hec
  · rw [← heq]
    exact processLinks_id_length _ _ _ _ hlc

/-- Lengths accumulated over a whole `to_data_columns` fold. -/
theorem foldlM_processSpan_lengths :
    ∀ (l : List (Nat × Span)) (dc dc' : DataColumns),
      l.foldlM processSpan dc = some dc' →
      dc'.spans.start_time_unix_nano_column.length =
        dc.spans.start_time_unix_nano_column.length + l.length ∧
      dc'.events.id_column.length = dc.events.id_column.length +
        (l.map (fun p => (p.2.events.getD []).length)).sum ∧
      dc'.links.id_column.length = dc.links.id_column.length +
        (l.map (fun p => (p.2.links.getD []).length)).sum
  | [], dc, dc', h => by cases h; simp
  | p :: rest, dc, dc', h => by
    rw [List.foldlM_cons] at h
    simp only [bind, Option.bind_eq_some] at h
    obtain ⟨dc₁, hstep, hrest⟩ := h
    obtain ⟨i, sp⟩ := p
    obtain ⟨h1, h2, h3⟩ := processSpan_lengths hstep
    obtain ⟨g1, g2, g3⟩ := foldlM_processSpan_lengths rest dc₁ dc' hrest
    refine ⟨by rw [g1, h1]; simp; omega, by rw [g2, h2]; simp; omega,
      by rw [g3, h3]; simp; omega⟩

/-- A successful pivot has one fixed-column row per span and one child row
per event and per link. -/
theorem to_data_columns_lengths {spans : List Span} {dc : DataColumns}
    (h : to_data_columns spans = some dc) :
    dc.spans.start_time_unix_nano_column.length = spans.length ∧
    dc.events.id_column.length = totalEventCount spans ∧
    dc.links.id_column.length = totalLinkCount spans := by
  unfold to_data_columns at h
  obtain ⟨h1, h2, h3⟩ := foldlM_processSpan_lengths spans.enum _ dc h
  have he : (spans.enum.map
      (fun p => (p.2.events.getD []).length)).sum = totalEventCount spans := by
    rw [show (fun (p : Nat × Span) => (p.2.events.getD []).length) =
      (fun s : Span => (s.events.getD []).length) ∘ Prod.snd from rfl]
    rw [← List.map_map, List.enum_map_snd]
    rfl
  have hl : (spans.enum.map
      (fun p => (p.2.links.getD []).length)).sum = totalLinkCount spans := by
    rw [show (fun (p : Nat × Span) => (p.2.links.getD []).length) =
      (fun s : Span => (s.links.getD []).length) ∘ Prod.snd from rfl]
    rw [← List.map_map, List.enum_map_snd]
    rfl
  refine ⟨?_, ?_, ?_⟩
  · rw [h1]; simp [List.enum_length]
  · rw [h2, he]; simp
  · rw [h3, hl]; simp



/-- **C10** (confirmed).  Whenever either encoding path produces an
envelope, decoding it yields three record batches; their column counts
equal the field counts of their (emitted) schemas, and their row counts
are the number of spans, the total number of events, and the total number
of links. -/
theorem c10_round_trip_batch_counts (spans : List Span) :
    (∀ env, serialize_row_oriented_data_source spans = some env →
      ∃ sb eb lb, deserialize env = some (sb, some eb, some lb) ∧
        sb.numRows = spans.length ∧
        eb.numRows = totalEventCount spans ∧
        lb.numRows = totalLinkCount spans ∧
        sb.numColumns = sb.schema.length ∧
        eb.numColumns = eb.schema.length ∧
        lb.numColumns = lb.schema.length) ∧
    (∀ env, serialize_column_oriented_data_source spans = some env →
      ∃ sb eb lb, deserialize env = some (sb, some eb, some lb) ∧
        sb.numRows = spans.length ∧
        eb.numRows = totalEventCount spans ∧
        lb.numRows = totalLinkCount spans ∧
        sb.numColumns = sb.schema.length ∧
        eb.numColumns = eb.schema.length ∧
        lb.numColumns = lb.schema.length) := by
  constructor
  · intro env henv
    obtain ⟨es, ec, ls, lc, ss, ebuf, lbuf, sbuf, hes, hls, hss, heb, hlb,
      hsb, rfl⟩ := serialize_row_inv henv
    obtain ⟨scols, sbatch, hsac, hstn, rfl⟩ := serialize_spans_row_inv hsb
    obtain ⟨ecols, ebatch, heac, hetn, rfl⟩ := serialize_events_row_inv heb
    obtain ⟨lcols, lbatch, hlac, hltn, rfl⟩ := serialize_links_row_inv hlb
    obtain ⟨hssch, hscols, hscount, hsne⟩ := tryNew_eq_some hstn
    obtain ⟨hesch, hecols, hecount, hene⟩ := tryNew_eq_some hetn
    obtain ⟨hlsch, hlcols, hlcount, hlne⟩ := tryNew_eq_some hltn
    refine ⟨sbatch, ebatch, lbatch,
      deserialize_streams sbatch ebatch lbatch
        (by simp only [RecordBatch.numColumns, hscols]
            exact List.length_pos.mpr hsne)
        (by simp only [RecordBatch.numColumns, hecols]
            exact List.length_pos.mpr hene)
        (by simp only [RecordBatch.numColumns, hlcols]
            exact List.length_pos.mpr hlne),
      ?_, ?_, ?_, ?_, ?_, ?_⟩
    · obtain ⟨sch, ats⟩ := ss
      obtain ⟨sExtra, hsx⟩ := add_attribute_columns_shape ats sch _ _ _ hsac
      have hhead : sbatch.columns =
          ArrowArray.uint64Arr
            (spans.map (fun span => some span.start_time_unix_nano)) ::
          (spanFixedArraysRow spans).tail ++
            ((if (decide (0 < ec + lc)) = true then
              [ArrowArray.uint32Arr ((List.range spans.length).map some)]
            else []) ++ sExtra) := by
        rw [hscols, hsx]
        rfl
      rw [numRows_of_head sbatch _ _ hhead]
      simp [ArrowArray.length]
    · obtain ⟨sch, ats⟩ := es
      obtain ⟨eExtra, hex⟩ := add_attribute_columns_shape ats sch _ _ _ heac
      have hhead : ebatch.columns =
          ArrowArray.uint32Arr ((flattenEvents spans).map
            (fun p => some p.1)) ::
          ((eventFixedArraysRow (flattenEvents spans)).tail ++ eExtra) := by
        rw [hecols, hex]
        rfl
      rw [numRows_of_head ebatch _ _ hhead]
      simp [ArrowArray.length, flattenEvents_length]
    · obtain ⟨sch, ats⟩ := ls
      obtain ⟨lExtra, hlx⟩ := add_attribute_columns_shape ats sch _ _ _ hlac
      have hhead : lbatch.columns =
          ArrowArray.uint32Arr ((flattenLinks spans).map
            (fun p => some p.1)) ::
          ((linkFixedArraysRow (flattenLinks spans)).tail ++ lExtra) := by
        rw [hlcols, hlx]
        rfl
      rw [numRows_of_head lbatch _ _ hhead]
      simp [ArrowArray.length, flattenLinks_length]
    · show sbatch.columns.length = sbatch.schema.length
      rw [hscols, hssch]
      exact hscount
    · show ebatch.columns.length = ebatch.schema.length
      rw [hecols, hesch]
      exact hecount
    · show lbatch.columns.length = lbatch.schema.length
      rw [hlcols, hlsch]
      exact hlcount
  · intro env henv
    obtain ⟨dc, ebuf, lbuf, sbuf, hdc, heb, hlb, hsb, rfl⟩ :=
      serialize_column_inv henv
    obtain ⟨hlen1, hlen2, hlen3⟩ := to_data_columns_lengths hdc
    obtain ⟨sres, sbatch, hsaf, hstn, rfl⟩ := serialize_spans_column_inv hsb
    obtain ⟨eres, ebatch, heaf, hetn, rfl⟩ := serialize_events_column_inv heb
    obtain ⟨lres, lbatch, hlaf, hltn, rfl⟩ := serialize_links_column_inv hlb
    obtain ⟨hssch, hscols, hscount, hsne⟩ := tryNew_eq_some hstn
    obtain ⟨hesch, hecols, hecount, hene⟩ := tryNew_eq_some hetn
    obtain ⟨hlsch, hlcols, hlcount, hlne⟩ := tryNew_eq_some hltn
    obtain ⟨sEF, sEC, hsf, hsc, _⟩ := attribute_fields_shape _ _ _ _ _ hsaf
    obtain ⟨eEF, eEC, hef, hec, _⟩ := attribute_fields_shape _ _ _ _ _ heaf
    obtain ⟨lEF, lEC, hlf, hlc, _⟩ := attribute_fields_shape _ _ _ _ _ hlaf
    refine ⟨sbatch, ebatch, lbatch,
      deserialize_streams sbatch ebatch lbatch
        (by simp only [RecordBatch.numColumns, hscols]
            exact List.length_pos.mpr hsne)
        (by simp only [RecordBatch.numColumns, hecols]
            exact List.length_pos.mpr hene)
        (by simp only [RecordBatch.numColumns, hlcols]
            exact List.length_pos.mpr hlne),
      ?_, ?_, ?_, ?_, ?_, ?_⟩
    · have hhead : sbatch.columns =
          ArrowArray.uint64Arr
            (dc.spans.start_time_unix_nano_column.map some) ::
          ((spanFixedArraysColumn dc).tail ++ sEC) := by
        rw [hscols, hsc]
        rfl
      rw [numRows_of_head sbatch _ _ hhead]
      simp [ArrowArray.length, hlen1]
    · have hhead : ebatch.columns =
          ArrowArray.uint32Arr (dc.events.id_column.map some) ::
          ((eventFixedArraysColumn dc).tail ++ eEC) := by
        rw [hecols, hec]
        rfl
      rw [numRows_of_head ebatch _ _ hhead]
      simp [ArrowArray.length, hlen2]
    · have hhead : lbatch.columns =
          ArrowArray.uint32Arr (dc.links.id_column.map some) ::
          ((linkFixedArraysColumn dc).tail ++ lEC) := by
        rw [hlcols, hlc]
        rfl
      rw [numRows_of_head lbatch _ _ hhead]
      simp [ArrowArray.length, hlen3]
    · show sbatch.columns.length = sbatch.schema.length
      rw [hscols, hssch]
      exact hscount
    · show ebatch.columns.length = ebatch.schema.length
      rw [hecols, hesch]
      exact hecount
    · show lbatch.columns.length = lbatch.schema.length
      rw [hlcols, hlsch]
      exact hlcount

/-- Witness for the C10 theorem on `c5Batch`: the row-oriented encoding of
the one-span one-event batch decodes successfully. -/
theorem c10_round_trip_batch_counts_witness :
    ((serialize_row_oriented_data_source c5Batch).bind
      (fun env => deserialize env)).isSome = true := by
  cases henv : serialize_row_oriented_data_source c5Batch with
  | none => exact absurd henv (by decide)
  | some env =>
    obtain ⟨sb, eb, lb, hd, _⟩ :=
      (c10_round_trip_batch_counts c5Batch).1 env henv
    simp [hd]

end OltpArrow
